import Mathlib

/-!
Verification of the conn-exporter network-connection collector.

The development shallowly embeds the Go program `main.go` of the
bjin01/conn-exporter repository: the kernel-table address codec
(`parseAddress`), the TCP state mapper (`connectionState`), the
connection-table readers (`getTCPConnections`, `getUDPConnections`),
the Prometheus collection pass (`Collect`), and the interface
resolver (`getNetworkInterfaces`, `getInterfaceForIP`,
`getInterfaceForConnection`, `getPrimaryInterface`,
`getInterfaceBySubnet`, `getInterfaceForDestination`).

Conventions of the embedding:
* Go strings are Lean `String`s; character-level processing works on
  `String.data` (a `List Char`).
* Machine integers are `Nat` / `Int` with explicit range checks where
  the Go standard library performs them (`strconv.ParseInt`).
* Fallible operations return `Option` or `Except`.
* Results of system calls and external commands (interface
  enumeration via `net.Interfaces`, the `ip route get` output, the
  `ss -tulnp` port-to-process map) are explicit parameters: the file
  contents of `/proc/net/tcp` and `/proc/net/udp` are lists of lines,
  with `none` standing for an open error.
-/

namespace ConnExporter

/-! ### Go string primitives

`goSplitChar sep` models `strings.Split` with a one-character
separator; `goFields` models `strings.Fields`; `goStartsWith` models
`strings.HasPrefix`. -/

/-- `strings.Split` on a single-character separator, at the character
level: splitting never returns an empty list, and separators at the
ends produce empty chunks, exactly as in Go. -/
def goSplitChar (sep : Char) : List Char → List (List Char)
  | [] => [[]]
  | c :: rest =>
    if c = sep then
      [] :: goSplitChar sep rest
    else
      match goSplitChar sep rest with
      | [] => [[c]]
      | h :: t => (c :: h) :: t

/-- Accumulator-style core of `strings.Fields`: maximal runs of
non-whitespace characters, in order. -/
def goFieldsAux (cur : List Char) : List Char → List (List Char)
  | [] => if cur = [] then [] else [cur.reverse]
  | c :: rest =>
    if c.isWhitespace then
      if cur = [] then goFieldsAux [] rest
      else cur.reverse :: goFieldsAux [] rest
    else goFieldsAux (c :: cur) rest

/-- `strings.Fields`: split a line on whitespace, dropping empty
fields. -/
def goFields (s : String) : List String :=
  (goFieldsAux [] s.data).map String.mk

/-- `strings.HasPrefix`. -/
def goStartsWith (s pre : String) : Bool :=
  pre.data.isPrefixOf s.data

/-! ### Hex decoding (`encoding/hex`) -/

/-- `encoding/hex.fromHexChar`: the value of one hex digit, accepting
`0-9`, `a-f` and `A-F`. -/
def hexVal? (c : Char) : Option Nat :=
  if '0' ≤ c ∧ c ≤ '9' then some (c.toNat - '0'.toNat)
  else if 'a' ≤ c ∧ c ≤ 'f' then some (c.toNat - 'a'.toNat + 10)
  else if 'A' ≤ c ∧ c ≤ 'F' then some (c.toNat - 'A'.toNat + 10)
  else none

/-- The two failure modes of `encoding/hex.Decode`: an invalid byte
(reported with the offending character) or an odd-length input. -/
inductive HexErr where
  | invalidByte (c : Char)
  | oddLength
  deriving Repr, DecidableEq

/-- `encoding/hex.DecodeString`: decode pairs of hex digits to bytes,
left to right; a bad character is reported before an odd length, as
in the Go implementation. -/
def hexDecodePairs : List Char → Except HexErr (List Nat)
  | [] => .ok []
  | [c] =>
    match hexVal? c with
    | none => .error (.invalidByte c)
    | some _ => .error .oddLength
  | c1 :: c2 :: rest =>
    match hexVal? c1 with
    | none => .error (.invalidByte c1)
    | some v1 =>
      match hexVal? c2 with
      | none => .error (.invalidByte c2)
      | some v2 =>
        match hexDecodePairs rest with
        | .error e => .error e
        | .ok bs => .ok ((16 * v1 + v2) :: bs)

/-! ### `strconv` -/

/-- Hexadecimal digit accumulation of `strconv.ParseUint`: consume
digits left to right, multiplying the accumulator by the base. -/
def hexNatAux (acc : Nat) : List Char → Option Nat
  | [] => some acc
  | c :: rest =>
    match hexVal? c with
    | none => none
    | some v => hexNatAux (acc * 16 + v) rest

/-- The value of a run of hex digits, `none` on any non-digit. -/
def hexNat? (cs : List Char) : Option Nat :=
  hexNatAux 0 cs

/-- The digits-and-range step of `strconv.ParseInt(s, 16, 64)` after
the sign has been stripped: one or more hex digits whose value fits
the signed 64-bit range for the given sign. -/
def parsePortDigits (neg : Bool) (digits : List Char) : Option Int :=
  if digits = [] then none
  else
    match hexNat? digits with
    | none => none
    | some n =>
      if neg then
        if n ≤ 2 ^ 63 then some (-(n : Int)) else none
      else
        if n ≤ 2 ^ 63 - 1 then some (n : Int) else none

/-- `strconv.ParseInt(s, 16, 64)`: an optional leading sign followed
by one or more hex digits, failing when the value leaves the signed
64-bit range. -/
def parsePortHex (cs : List Char) : Option Int :=
  match cs with
  | [] => none
  | c :: rest =>
    if c = '+' then parsePortDigits false rest
    else if c = '-' then parsePortDigits true rest
    else parsePortDigits false cs

/-! ### The address codec (`parseAddress`) -/

/-- The distinct failure shapes of `parseAddress`. -/
inductive DecodeErr where
  /-- `invalid address format`: the input did not split on `:` into
  exactly two parts. -/
  | invalidFormat
  /-- an error propagated from `hex.DecodeString`. -/
  | hexError (e : HexErr)
  /-- an error propagated from `strconv.ParseInt` on the port part. -/
  | portError
  /-- `IPv6 support is currently disabled`: 16 decoded bytes. -/
  | ipv6Unsupported
  /-- `invalid IP address length`: a byte count other than 4 or 16. -/
  | invalidIPLength (n : Nat)
  deriving Repr, DecidableEq

/-- `net.IP.String()` on a 4-byte address: dotted decimal. -/
def ipDotted (a b c d : Nat) : String :=
  Nat.repr a ++ "." ++ Nat.repr b ++ "." ++ Nat.repr c ++ "." ++ Nat.repr d

/-- `parseAddress`: split `HEXIP:HEXPORT` on `:`, hex-decode the IP
part, parse the port part as a base-16 signed 64-bit integer, check
the decoded byte count (4 accepted, 16 rejected as IPv6, anything
else rejected as an invalid length), reverse the four bytes and
render them in dotted decimal, formatting the port in base 10. -/
def parseAddress (addr : String) : Except DecodeErr (String × String) :=
  match goSplitChar ':' addr.data with
  | [ipPart, portPart] =>
    match hexDecodePairs ipPart with
    | .error e => .error (.hexError e)
    | .ok ipBytes =>
      match parsePortHex portPart with
      | none => .error .portError
      | some port =>
        if ipBytes.length = 4 then
          .ok (ipDotted (ipBytes.getD 3 0) (ipBytes.getD 2 0)
                 (ipBytes.getD 1 0) (ipBytes.getD 0 0),
               Int.repr port)
        else if ipBytes.length = 16 then
          .error .ipv6Unsupported
        else
          .error (.invalidIPLength ipBytes.length)
  | _ => .error .invalidFormat

/-! ### The state mapper (`connectionState`) -/

/-- The fixed switch from a two-digit hex state code to its symbolic
name; every unlisted input falls through to `UNKNOWN`. -/
def connectionState (s : String) : String :=
  if s = "01" then "ESTABLISHED"
  else if s = "02" then "SYN_SENT"
  else if s = "03" then "SYN_RECV"
  else if s = "04" then "FIN_WAIT1"
  else if s = "05" then "FIN_WAIT2"
  else if s = "06" then "TIME_WAIT"
  else if s = "07" then "CLOSE"
  else if s = "08" then "CLOSE_WAIT"
  else if s = "09" then "LAST_ACK"
  else if s = "0A" then "LISTEN"
  else if s = "0B" then "CLOSING"
  else "UNKNOWN"

/-! ### Connection records and the table readers -/

/-- One decoded row of a kernel connection table (the Go struct
`tcpConnection`, also reused for UDP rows). -/
structure TCPConn where
  sourceAddress : String
  sourcePort : String
  destinationAddress : String
  destinationPort : String
  state : String
  sourceInterface : String
  processName : String
  deriving Repr, DecidableEq

/-- `directionForEstablishedIncoming`: the source port is a member of
the LISTEN-port set. -/
def directionForEstablishedIncoming (sourcePort : String)
    (listenPorts : List String) : Bool :=
  listenPorts.contains sourcePort

/-- The body of the row loop of `getTCPConnections`: split the line
into fields, skip it when fewer than 10 fields remain or either
address fails to decode, otherwise build the record.  The interface
resolver (`getInterfaceForConnection`, stateful in Go) is passed as
the function `resolve`, and the port-to-process map parsed from the
`ss -tulnp` output as `procMap`.  `listenPorts = none` models the
`nil` map of the first collection read. -/
def parseTCPRow (listenPorts : Option (List String))
    (procMap : List (String × String))
    (resolve : String → String → String) (line : String) :
    Option TCPConn :=
  let fields := goFields line
  if fields.length < 10 then none
  else
    let localAddress := fields.getD 1 ""
    let remoteAddress := fields.getD 2 ""
    let state := fields.getD 3 ""
    match parseAddress localAddress with
    | .error _ => none
    | .ok (sourceAddress, sourcePort) =>
      match parseAddress remoteAddress with
      | .error _ => none
      | .ok (destinationAddress, destinationPort) =>
        let isListen := connectionState state == "LISTEN"
        let isEstablishedIncoming :=
          connectionState state == "ESTABLISHED" &&
            (match listenPorts with
             | none => false
             | some lp => directionForEstablishedIncoming sourcePort lp)
        let processName :=
          if isListen || isEstablishedIncoming then
            match procMap.lookup sourcePort with
            | some name => name
            | none => ""
          else ""
        some { sourceAddress, sourcePort,
               destinationAddress, destinationPort,
               state := connectionState state,
               sourceInterface := resolve sourceAddress destinationAddress,
               processName }

/-- `getTCPConnections`: `none` when the table source cannot be
opened; otherwise drop the header line and decode the remaining rows,
skipping the malformed ones. -/
def getTCPConnections (file : Option (List String))
    (listenPorts : Option (List String))
    (procMap : List (String × String))
    (resolve : String → String → String) : Option (List TCPConn) :=
  match file with
  | none => none
  | some lines =>
    some ((lines.drop 1).filterMap (parseTCPRow listenPorts procMap resolve))

/-- The row loop of `getUDPConnections`: the UDP table has no TCP
state field, so the state is synthesized — `LISTEN` for a bound local
port, `UNCONN` otherwise. -/
def parseUDPRow (resolve : String → String → String) (line : String) :
    Option TCPConn :=
  let fields := goFields line
  if fields.length < 10 then none
  else
    let localAddress := fields.getD 1 ""
    let remoteAddress := fields.getD 2 ""
    match parseAddress localAddress with
    | .error _ => none
    | .ok (sourceAddress, sourcePort) =>
      let state := if sourcePort ≠ "0" then "LISTEN" else "UNCONN"
      match parseAddress remoteAddress with
      | .error _ => none
      | .ok (destinationAddress, destinationPort) =>
        some { sourceAddress, sourcePort,
               destinationAddress, destinationPort,
               state,
               sourceInterface := resolve sourceAddress destinationAddress,
               processName := "" }

/-- `getUDPConnections`: like the TCP reader, without direction or
process attribution. -/
def getUDPConnections (file : Option (List String))
    (resolve : String → String → String) : Option (List TCPConn) :=
  match file with
  | none => none
  | some lines =>
    some ((lines.drop 1).filterMap (parseUDPRow resolve))

/-! ### The collection pass (`Collect`) -/

/-- One emitted `network_connections_info` sample, identified by its
nine label values. -/
structure Metric where
  sourceAddress : String
  sourcePort : String
  destinationAddress : String
  destinationPort : String
  state : String
  interfaceName : String
  protocol : String
  direction : String
  processName : String
  deriving Repr, DecidableEq

/-- The LISTEN-port set harvested by the first TCP read of a
collection pass (`Collect` builds `listenPorts` from
`getTCPConnections(file, nil)`, keeping the source ports of the
LISTEN rows); a read error leaves the set empty. -/
def listenPortsOf (tcp : Option (List String))
    (procMap : List (String × String))
    (resolve : String → String → String) : List String :=
  match getTCPConnections tcp none procMap resolve with
  | some conns =>
    (conns.filter (fun c => c.state == "LISTEN")).map (·.sourcePort)
  | none => []

/-- The sample emitted for one TCP record: protocol `tcp`, direction
`incoming` exactly when the source port is in the LISTEN-port set. -/
def tcpMetric (listenPorts : List String) (c : TCPConn) : Metric :=
  { sourceAddress := c.sourceAddress, sourcePort := c.sourcePort,
    destinationAddress := c.destinationAddress,
    destinationPort := c.destinationPort, state := c.state,
    interfaceName := c.sourceInterface, protocol := "tcp",
    direction :=
      if listenPorts.contains c.sourcePort then "incoming" else "outgoing",
    processName := c.processName }

/-- The sample emitted for one UDP record: protocol `udp`, direction
always `unknown`, empty process name. -/
def udpMetric (c : TCPConn) : Metric :=
  { sourceAddress := c.sourceAddress, sourcePort := c.sourcePort,
    destinationAddress := c.destinationAddress,
    destinationPort := c.destinationPort, state := c.state,
    interfaceName := c.sourceInterface, protocol := "udp",
    direction := "unknown", processName := "" }

/-- The TCP half of a collection pass: read the table with the
LISTEN-port set and emit one sample per record; a failed read is
logged and contributes nothing. -/
def collectTCP (tcp : Option (List String)) (listenPorts : List String)
    (procMap : List (String × String))
    (resolve : String → String → String) : List Metric :=
  match getTCPConnections tcp (some listenPorts) procMap resolve with
  | none => []
  | some conns => conns.map (tcpMetric listenPorts)

/-- The UDP half of a collection pass: a failed read is logged and
contributes nothing. -/
def collectUDP (udp : Option (List String))
    (resolve : String → String → String) : List Metric :=
  match getUDPConnections udp resolve with
  | none => []
  | some conns => conns.map udpMetric

/-- `Collect`: harvest the LISTEN-port set from a first TCP read,
read the TCP table again with that set to emit the TCP samples, then
read and emit the UDP table. -/
def collect (tcp udp : Option (List String))
    (procMap : List (String × String))
    (resolve : String → String → String) : List Metric :=
  let listenPorts := listenPortsOf tcp procMap resolve
  collectTCP tcp listenPorts procMap resolve ++ collectUDP udp resolve

/-! ### The interface resolver

The system facts the resolver consults are explicit values: one
`NetIface` per entry of the `net.Interfaces()` slice, with `none`
for a failing `Addrs()` call, and the addresses carrying the result
of `To4()` (four byte values) plus, for `*net.IPNet` entries, the
network number and mask that `Contains` masks against. -/

/-- The dynamic type of one `net.Addr`: the two cases the code
switches on, and the default case it skips. -/
inductive AddrKind where
  | ipNet
  | ipAddr
  | other
  deriving Repr, DecidableEq

/-- One address bound to an interface. -/
structure NetAddr where
  kind : AddrKind
  /-- `IP.To4()`: the four bytes of an IPv4-representable address,
  `none` otherwise. -/
  v4 : Option (Nat × Nat × Nat × Nat)
  /-- For `*net.IPNet` values, the 32-bit network number and mask
  used by `Contains`. -/
  subnet : Option (Nat × Nat)
  deriving Repr, DecidableEq

/-- One entry of the `net.Interfaces()` slice. -/
structure NetIface where
  name : String
  up : Bool
  loopback : Bool
  /-- `Addrs()`, with `none` for the error branch. -/
  addrs : Option (List NetAddr)
  deriving Repr, DecidableEq

/-- Go map assignment on the string-keyed cache: overwrite the
existing binding or append a new one. -/
def mapInsert (m : List (String × String)) (k v : String) :
    List (String × String) :=
  if m.any (fun kv => kv.1 == k) then
    m.map (fun kv => if kv.1 == k then (kv.1, v) else kv)
  else m ++ [(k, v)]

/-- The inner address loop of `getNetworkInterfaces`: skip unknown
address types, addresses without an IPv4 form and loopback
addresses; record the rest under the interface name. -/
def addAddrEntries (name : String) (m : List (String × String)) :
    List NetAddr → List (String × String)
  | [] => m
  | a :: rest =>
    match a.kind with
    | .other => addAddrEntries name m rest
    | _ =>
      match a.v4 with
      | none => addAddrEntries name m rest
      | some (x, y, z, w) =>
        if x = 127 then addAddrEntries name m rest
        else addAddrEntries name (mapInsert m (ipDotted x y z w) name) rest

/-- The interface loop of `getNetworkInterfaces`: skip interfaces
that are down or loopback, and interfaces whose `Addrs()` call
fails. -/
def buildIfaceMap (m : List (String × String)) :
    List NetIface → List (String × String)
  | [] => m
  | i :: rest =>
    if !i.up || i.loopback then buildIfaceMap m rest
    else
      match i.addrs with
      | none => buildIfaceMap m rest
      | some as => buildIfaceMap (addAddrEntries i.name m as) rest

/-- `getNetworkInterfaces`: build the IP-to-interface-name map, or
fail when `net.Interfaces()` fails. -/
def getNetworkInterfaces (ifaces : Option (List NetIface)) :
    Option (List (String × String)) :=
  match ifaces with
  | none => none
  | some l => some (buildIfaceMap [] l)

/-- Does the interface carry at least one `*net.IPNet` address with
an IPv4 form?  This is the inner-loop test of
`getPrimaryInterface`. -/
def hasIPNetV4 (i : NetIface) : Bool :=
  match i.addrs with
  | none => false
  | some as => as.any (fun a => a.kind == AddrKind.ipNet && a.v4.isSome)

/-- One priority loop of `getPrimaryInterface`: skip loopback or
down interfaces, apply the name filter of the loop, and return the
first interface that also has an IPv4 address (an `Addrs()` error
skips the interface). -/
def scanPrimary (nameOK : String → Bool) : List NetIface → Option String
  | [] => none
  | i :: rest =>
    if i.loopback || !i.up then scanPrimary nameOK rest
    else if nameOK i.name then
      if hasIPNetV4 i then some i.name else scanPrimary nameOK rest
    else scanPrimary nameOK rest

/-- `getPrimaryInterface`: bonding interfaces first, then
ethernet-named ones, then any up non-loopback interface with an IPv4
address, else `unknown` (also when `net.Interfaces()` fails). -/
def getPrimaryInterface (ifaces : Option (List NetIface)) : String :=
  match ifaces with
  | none => "unknown"
  | some l =>
    match scanPrimary (fun n => goStartsWith n "bond") l with
    | some name => name
    | none =>
      match scanPrimary
          (fun n => goStartsWith n "eth" || goStartsWith n "en") l with
      | some name => name
      | none =>
        match scanPrimary (fun _ => true) l with
        | some name => name
        | none => "unknown"

/-- One decimal digit. -/
def decDigitVal? (c : Char) : Option Nat :=
  if '0' ≤ c ∧ c ≤ '9' then some (c.toNat - '0'.toNat) else none

/-- Decimal digit accumulation. -/
def decNatAux (acc : Nat) : List Char → Option Nat
  | [] => some acc
  | c :: rest =>
    match decDigitVal? c with
    | none => none
    | some v => decNatAux (acc * 10 + v) rest

/-- One dotted-decimal octet, rejecting empty fields, values above
255 and redundant leading zeros, as `net.ParseIP` does. -/
def decOctet? : List Char → Option Nat
  | [] => none
  | ['0'] => some 0
  | '0' :: _ :: _ => none
  | cs =>
    match decNatAux 0 cs with
    | none => none
    | some n => if n ≤ 255 then some n else none

/-- `net.ParseIP` on the dotted-quad shapes this program produces
(every address it resolves comes out of `parseAddress`), as a 32-bit
number; other shapes yield `none`. -/
def parseIP4 (s : String) : Option Nat :=
  match goSplitChar '.' s.data with
  | [a, b, c, d] =>
    match decOctet? a, decOctet? b, decOctet? c, decOctet? d with
    | some x, some y, some z, some w =>
      some (((x * 256 + y) * 256 + z) * 256 + w)
    | _, _, _, _ => none
  | _ => none

/-- `net.IPNet.Contains` on 32-bit numbers: mask both sides with the
subnet mask and compare. -/
def subnetContains (a : NetAddr) (t : Nat) : Bool :=
  match a.subnet with
  | none => false
  | some (netip, mask) => Nat.land t mask == Nat.land netip mask

/-- The interface loop of `getInterfaceBySubnet`. -/
def scanSubnet (t : Nat) : List NetIface → Option String
  | [] => none
  | i :: rest =>
    if !i.up || i.loopback then scanSubnet t rest
    else
      match i.addrs with
      | none => scanSubnet t rest
      | some as =>
        if as.any (fun a => a.kind == AddrKind.ipNet && subnetContains a t)
        then some i.name
        else scanSubnet t rest

/-- `getInterfaceBySubnet`: the first up, non-loopback interface one
of whose advertised subnets contains the target IP. -/
def getInterfaceBySubnet (ifaces : Option (List NetIface))
    (targetIP : String) : String :=
  match ifaces with
  | none => "unknown"
  | some l =>
    match parseIP4 targetIP with
    | none => "unknown"
    | some t =>
      match scanSubnet t l with
      | some name => name
      | none => "unknown"

/-- `IP.IsLoopback` on a 32-bit IPv4 number: first octet 127. -/
def isLoopbackNum (t : Nat) : Bool :=
  t / 2 ^ 24 == 127

/-- `isLocalIP`: loopback, unspecified, private and link-local
ranges. -/
def isLocalIP (ip : String) : Bool :=
  if ip == "127.0.0.1" || ip == "0.0.0.0" then true
  else
    match parseIP4 ip with
    | none => false
    | some t =>
      isLoopbackNum t || goStartsWith ip "192.168." ||
        goStartsWith ip "172.16." || goStartsWith ip "10." ||
        goStartsWith ip "169.254."

/-- Scan the fields of one `ip route get` output line for a `dev`
token followed by an interface name. -/
def findDevToken : List String → Option String
  | [] => none
  | "dev" :: x :: _ => some x
  | _ :: rest => findDevToken rest

/-- `getInterfaceForDestination`: parse the routing-query output for
the first `dev` token; `none` lines model the command failing at
every candidate path. -/
def getInterfaceForDestination (routeLines : Option (List String)) :
    String :=
  match routeLines with
  | none => "unknown"
  | some lines =>
    match lines.findSome? (fun ln => findDevToken (goFields ln)) with
    | some d => d
    | none => "unknown"

/-- The system environment one resolution consults: `enumerate` is
the map a call to `getNetworkInterfaces` returns at this instant
(`none` for failure of the enumeration and of its fallbacks),
`ifaces` the `net.Interfaces()` slice used by the subnet and
primary-interface scans, `routeLines` the `ip route get` output. -/
structure ResolveEnv where
  enumerate : Option (List (String × String))
  ifaces : Option (List NetIface)
  routeLines : Option (List String)

/-- How many times one resolution performed each observable step:
cache initializations, cache rebuilds, subnet-containment scans,
routing queries, and primary-interface computations. -/
structure ResCounts where
  initCalls : Nat
  rebuilds : Nat
  subnetChecks : Nat
  routeQueries : Nat
  primaryCalls : Nat
  deriving Repr, DecidableEq

/-- The body of `getInterfaceForIP` once the cache is initialized:
exact cache lookup first, then the special addresses, then one cache
rebuild and retry, then the subnet scan, else `unknown`.  The
`ResCounts` component records the steps taken. -/
def resolveWithCache (env : ResolveEnv) (cache : List (String × String))
    (ip : String) (initN : Nat) : String × ResCounts :=
  match List.lookup ip cache with
  | some iface => (iface, ⟨initN, 0, 0, 0, 0⟩)
  | none =>
    if ip = "127.0.0.1" then ("lo", ⟨initN, 0, 0, 0, 0⟩)
    else if ip = "0.0.0.0" then
      (getPrimaryInterface env.ifaces, ⟨initN, 0, 0, 0, 1⟩)
    else
      match env.enumerate with
      | none => ("unknown", ⟨initN, 1, 0, 0, 0⟩)
      | some cache2 =>
        match List.lookup ip cache2 with
        | some iface => (iface, ⟨initN, 1, 0, 0, 0⟩)
        | none =>
          let s := getInterfaceBySubnet env.ifaces ip
          if s ≠ "unknown" then (s, ⟨initN, 1, 1, 0, 0⟩)
          else ("unknown", ⟨initN, 1, 1, 0, 0⟩)

/-- `getInterfaceForIP`, instrumented with step counts: a `none`
cache is the uninitialized global, filled by one enumeration call
before the lookup (resolution fails as `unknown` when that call
fails). -/
def getInterfaceForIPInstr (env : ResolveEnv)
    (cache0 : Option (List (String × String))) (ip : String) :
    String × ResCounts :=
  match cache0 with
  | none =>
    match env.enumerate with
    | none => ("unknown", ⟨1, 0, 0, 0, 0⟩)
    | some cache => resolveWithCache env cache ip 1
  | some cache => resolveWithCache env cache ip 0

/-- `getInterfaceForIP`: the resolved name only. -/
def getInterfaceForIP (env : ResolveEnv)
    (cache0 : Option (List (String × String))) (ip : String) : String :=
  (getInterfaceForIPInstr env cache0 ip).1

/-- Add route-query and primary-interface steps to a count. -/
def addRoutePrimary (c : ResCounts) (route primary : Nat) : ResCounts :=
  ⟨c.initCalls, c.rebuilds, c.subnetChecks,
   c.routeQueries + route, c.primaryCalls + primary⟩

/-- `getInterfaceForConnection`, instrumented: loopback endpoints
short-circuit to `lo`; a wildcard destination resolves the source
(or the primary interface for a wildcard source); otherwise resolve
the source IP, then query the route for non-local destinations, then
fall back to the primary interface. -/
def getInterfaceForConnectionInstr (env : ResolveEnv)
    (cache0 : Option (List (String × String)))
    (sourceIP destIP : String) : String × ResCounts :=
  if sourceIP = "127.0.0.1" ∨ destIP = "127.0.0.1" then
    ("lo", ⟨0, 0, 0, 0, 0⟩)
  else if destIP = "0.0.0.0" then
    if sourceIP = "0.0.0.0" then
      (getPrimaryInterface env.ifaces, ⟨0, 0, 0, 0, 1⟩)
    else getInterfaceForIPInstr env cache0 sourceIP
  else
    let step1 :=
      if sourceIP ≠ "0.0.0.0" ∧ sourceIP ≠ "127.0.0.1" then
        getInterfaceForIPInstr env cache0 sourceIP
      else ("unknown", ⟨0, 0, 0, 0, 0⟩)
    match step1 with
    | (r1, c1) =>
      if r1 ≠ "unknown" then (r1, c1)
      else
        if !(isLocalIP destIP) then
          let r2 := getInterfaceForDestination env.routeLines
          if r2 ≠ "unknown" then (r2, addRoutePrimary c1 1 0)
          else (getPrimaryInterface env.ifaces, addRoutePrimary c1 1 1)
        else (getPrimaryInterface env.ifaces, addRoutePrimary c1 0 1)

/-- `getInterfaceForConnection`: the resolved name only. -/
def getInterfaceForConnection (env : ResolveEnv)
    (cache0 : Option (List (String × String)))
    (sourceIP destIP : String) : String :=
  (getInterfaceForConnectionInstr env cache0 sourceIP destIP).1

/-! ## Helper lemmas -/

/-- The domain of the state-code switch. -/
def stateCodes : List String :=
  ["01", "02", "03", "04", "05", "06", "07", "08", "09", "0A", "0B"]

theorem connectionState_default (s : String) (h : s ∉ stateCodes) :
    connectionState s = "UNKNOWN" := by
  simp only [stateCodes, List.mem_cons, List.not_mem_nil, or_false,
    not_or] at h
  obtain ⟨h1, h2, h3, h4, h5, h6, h7, h8, h9, h10, h11⟩ := h
  simp [connectionState, h1, h2, h3, h4, h5, h6, h7, h8, h9, h10, h11]

theorem parseTCPRow_emits (lp : Option (List String))
    (pm : List (String × String)) (r : String → String → String)
    (line sa sp da dp : String) (hn : 10 ≤ (goFields line).length)
    (h1 : parseAddress ((goFields line).getD 1 "") = .ok (sa, sp))
    (h2 : parseAddress ((goFields line).getD 2 "") = .ok (da, dp)) :
    ∃ conn, parseTCPRow lp pm r line = some conn ∧
      conn.state = connectionState ((goFields line).getD 3 "") ∧
      conn.sourceAddress = sa ∧ conn.sourcePort = sp ∧
      conn.destinationAddress = da ∧ conn.destinationPort = dp := by
  have hlt : ¬ ((goFields line).length < 10) := by omega
  simp only [parseTCPRow, hlt, if_false, h1, h2]
  exact ⟨_, rfl, rfl, rfl, rfl, rfl, rfl⟩

/-- The sixteen uppercase hex digits: the alphabet of the kernel
table's address fields. -/
def upperHexDigits : List Char :=
  "0123456789ABCDEF".data

/-- The uppercase rendering of one hex digit value (48 is the code
point of `0`, 55 + 10 that of `A`). -/
def byteHexDigit (n : Nat) : Char :=
  Char.ofNat (if n < 10 then n + 48 else n + 55)

/-- The two-uppercase-hex-digit rendering of one byte. -/
def byteToHexUpper (n : Nat) : List Char :=
  [byteHexDigit (n / 16), byteHexDigit (n % 16)]

/-- The spec's re-encoding direction: render a byte sequence back
into the kernel table's uppercase hex alphabet.  This is the inverse
the round-trip property compares `parseAddress` against. -/
def hexEncodeBytes (bs : List Nat) : List Char :=
  (bs.map byteToHexUpper).flatten

theorem hexVal_upper (c : Char) (h : c ∈ upperHexDigits) :
    ∃ v, hexVal? c = some v ∧ v < 16 ∧ byteHexDigit v = c := by
  have hall : ∀ d ∈ upperHexDigits,
      (match hexVal? d with
       | some v => decide (v < 16) && (byteHexDigit v == d)
       | none => false) = true := by decide
  have hc := hall c h
  rcases hv : hexVal? c with _ | v
  · rw [hv] at hc
    exact absurd hc (by simp)
  · rw [hv] at hc
    simp only [Bool.and_eq_true, decide_eq_true_eq, beq_iff_eq] at hc
    exact ⟨v, rfl, hc.1, hc.2⟩

theorem byteToHexUpper_digits (v1 v2 : Nat) (h1 : v1 < 16) (h2 : v2 < 16) :
    byteToHexUpper (16 * v1 + v2) = [byteHexDigit v1, byteHexDigit v2] := by
  have hdiv : (16 * v1 + v2) / 16 = v1 := by
    rw [Nat.mul_add_div (by norm_num), Nat.div_eq_of_lt h2, Nat.add_zero]
  have hmod : (16 * v1 + v2) % 16 = v2 := by
    rw [Nat.mul_add_mod, Nat.mod_eq_of_lt h2]
  rw [byteToHexUpper, hdiv, hmod]

theorem hexDecodePairs_roundtrip : ∀ l : List Char,
    (∀ c ∈ l, c ∈ upperHexDigits) → l.length % 2 = 0 →
    ∃ bs, hexDecodePairs l = .ok bs ∧ hexEncodeBytes bs = l ∧
      2 * bs.length = l.length ∧ ∀ b ∈ bs, b < 256
  | [], _, _ => ⟨[], rfl, rfl, rfl, by simp⟩
  | [c], _, hlen => by simp at hlen
  | c1 :: c2 :: rest, hmem, hlen => by
    obtain ⟨v1, hv1, hlt1, he1⟩ := hexVal_upper c1 (hmem c1 (by simp))
    obtain ⟨v2, hv2, hlt2, he2⟩ := hexVal_upper c2 (hmem c2 (by simp))
    have hrest : ∀ c ∈ rest, c ∈ upperHexDigits := fun c hc =>
      hmem c (by simp [hc])
    have hlen' : rest.length % 2 = 0 := by
      simp only [List.length_cons] at hlen; omega
    obtain ⟨bs, hbs, henc, hcnt, hbnd⟩ :=
      hexDecodePairs_roundtrip rest hrest hlen'
    refine ⟨(16 * v1 + v2) :: bs, ?_, ?_, ?_, ?_⟩
    · simp [hexDecodePairs, hv1, hv2, hbs]
    · simp [hexEncodeBytes, byteToHexUpper_digits v1 v2 hlt1 hlt2,
        he1, he2]
      simpa [hexEncodeBytes] using henc
    · simp only [List.length_cons]; omega
    · intro b hb
      rcases List.mem_cons.mp hb with rfl | hb
      · omega
      · exact hbnd b hb

theorem goSplitChar_no_sep (sep : Char) : ∀ l : List Char,
    sep ∉ l → goSplitChar sep l = [l]
  | [], _ => rfl
  | c :: rest, h => by
    have hc : ¬ c = sep := fun e => h (by simp [e])
    have ih := goSplitChar_no_sep sep rest (fun e => h (by simp [e]))
    simp [goSplitChar, hc, ih]

theorem goSplitChar_append (sep : Char) : ∀ l1 l2 : List Char,
    sep ∉ l1 → sep ∉ l2 →
    goSplitChar sep (l1 ++ sep :: l2) = [l1, l2]
  | [], l2, _, h2 => by
    simp [goSplitChar, goSplitChar_no_sep sep l2 h2]
  | c :: rest, l2, h1, h2 => by
    have hc : ¬ c = sep := fun e => h1 (by simp [e])
    have ih := goSplitChar_append sep rest l2 (fun e => h1 (by simp [e])) h2
    simp [goSplitChar, hc, ih]

theorem hexNatAux_chars : ∀ (cs : List Char) (acc n : Nat),
    hexNatAux acc cs = some n → ∀ c ∈ cs, (hexVal? c).isSome
  | [], _, _, _, c, hc => by simp at hc
  | c0 :: rest, acc, n, h, c, hc => by
    rcases hv : hexVal? c0 with _ | v
    · rw [hexNatAux, hv] at h; exact absurd h (by simp)
    · rw [hexNatAux, hv] at h
      rcases List.mem_cons.mp hc with rfl | hc
      · simp [hv]
      · exact hexNatAux_chars rest _ n h c hc

theorem parsePortDigits_chars (neg : Bool) (ds : List Char) (p : Int)
    (h : parsePortDigits neg ds = some p) :
    ∀ c ∈ ds, (hexVal? c).isSome := by
  intro c hc
  rw [parsePortDigits] at h
  split at h
  · exact absurd h (by simp)
  · rcases hn : hexNat? ds with _ | v
    · rw [hn] at h; exact absurd h (by simp)
    · exact hexNatAux_chars ds 0 v hn c hc

theorem parsePortHex_no_colon (cs : List Char) (p : Int)
    (h : parsePortHex cs = some p) : ':' ∉ cs := by
  match cs with
  | [] => simp
  | c :: rest =>
    intro hmem
    rw [parsePortHex] at h
    have hcolon : (hexVal? ':').isSome = false := by decide
    by_cases hp : c = '+'
    · rw [if_pos hp] at h
      rcases List.mem_cons.mp hmem with hc | hc
      · rw [hp] at hc; exact absurd hc.symm (by decide)
      · have := parsePortDigits_chars false rest p h ':' hc
        simp [hcolon] at this
    · by_cases hm : c = '-'
      · rw [if_neg hp, if_pos hm] at h
        rcases List.mem_cons.mp hmem with hc | hc
        · rw [hm] at hc; exact absurd hc.symm (by decide)
        · have := parsePortDigits_chars true rest p h ':' hc
          simp [hcolon] at this
      · rw [if_neg hp, if_neg hm] at h
        have := parsePortDigits_chars false (c :: rest) p h ':' hmem
        simp [hcolon] at this

theorem list_len4 {α : Type} : ∀ l : List α,
    l.length = 4 → ∃ a b c d, l = [a, b, c, d]
  | [], h => by simp at h
  | [a], h => by simp at h
  | [a, b], h => by simp at h
  | [a, b, c], h => by simp at h
  | [a, b, c, d], _ => ⟨a, b, c, d, rfl⟩
  | a :: b :: c :: d :: e :: tl, h => by
    simp only [List.length_cons] at h; omega

/-! ## C1 -/

/-- C1: for a kernel-table address string of exactly 8 uppercase hex
digits, a colon and a valid hex port, `parseAddress` decodes the hex
IP to 4 bytes, reverses them and renders them in dotted decimal, and
re-encoding the dotted-decimal octets in reversed order reproduces
the original 8 hex characters; in particular `0100007F:0016` decodes
to `127.0.0.1` port `22` and `00000000:0000` to `0.0.0.0` port
`0`. -/
theorem parseAddress_ip_roundtrip (ipPart portPart : String) (p : Int)
    (hlen : ipPart.data.length = 8)
    (hhex : ∀ c ∈ ipPart.data, c ∈ upperHexDigits)
    (hport : parsePortHex portPart.data = some p) :
    (∃ b0 b1 b2 b3,
      hexDecodePairs ipPart.data = .ok [b0, b1, b2, b3] ∧
      parseAddress (ipPart ++ ":" ++ portPart) =
        .ok (ipDotted b3 b2 b1 b0, Int.repr p) ∧
      hexEncodeBytes [b0, b1, b2, b3] = ipPart.data) ∧
    parseAddress "0100007F:0016" = .ok ("127.0.0.1", "22") ∧
    parseAddress "00000000:0000" = .ok ("0.0.0.0", "0") := by
  refine ⟨?_, rfl, rfl⟩
  obtain ⟨bs, hbs, henc, hcnt, _⟩ :=
    hexDecodePairs_roundtrip ipPart.data hhex (by omega)
  obtain ⟨b0, b1, b2, b3, rfl⟩ := list_len4 bs (by omega)
  refine ⟨b0, b1, b2, b3, hbs, ?_, henc⟩
  have hnc1 : ':' ∉ ipPart.data := fun hc =>
    absurd (hhex ':' hc) (by decide)
  have hnc2 : ':' ∉ portPart.data := parsePortHex_no_colon _ p hport
  have hdata : (ipPart ++ ":" ++ portPart).data =
      ipPart.data ++ ':' :: portPart.data := by
    simp [String.data_append]
  have hsplit : goSplitChar ':' (ipPart ++ ":" ++ portPart).data =
      [ipPart.data, portPart.data] := by
    rw [hdata]; exact goSplitChar_append ':' _ _ hnc1 hnc2
  rw [parseAddress, hsplit]
  simp [hbs, hport, List.getD]

/-- Witness for C1 at the concrete input `0100007F:0016`. -/
theorem parseAddress_ip_roundtrip_witness :
    ∃ b0 b1 b2 b3,
      hexDecodePairs "0100007F".data = .ok [b0, b1, b2, b3] ∧
      parseAddress ("0100007F" ++ ":" ++ "0016") =
        .ok (ipDotted b3 b2 b1 b0, Int.repr 22) ∧
      hexEncodeBytes [b0, b1, b2, b3] = "0100007F".data :=
  (parseAddress_ip_roundtrip "0100007F" "0016" 22 (by decide) (by decide)
    rfl).1

/-! ## C2 -/

/-- C2: `connectionState` realizes exactly the fixed code table,
returns `UNKNOWN` for every input outside it instead of failing, and
a well-formed row whose state code is outside the table is still
emitted as a record (with the `UNKNOWN` label value). -/
theorem connectionState_complete :
    (connectionState "01" = "ESTABLISHED" ∧
     connectionState "02" = "SYN_SENT" ∧
     connectionState "03" = "SYN_RECV" ∧
     connectionState "04" = "FIN_WAIT1" ∧
     connectionState "05" = "FIN_WAIT2" ∧
     connectionState "06" = "TIME_WAIT" ∧
     connectionState "07" = "CLOSE" ∧
     connectionState "08" = "CLOSE_WAIT" ∧
     connectionState "09" = "LAST_ACK" ∧
     connectionState "0A" = "LISTEN" ∧
     connectionState "0B" = "CLOSING") ∧
    (∀ s : String, s ∉ stateCodes → connectionState s = "UNKNOWN") ∧
    (∀ (lp : Option (List String)) (pm : List (String × String))
       (r : String → String → String) (line sa sp da dp : String),
      10 ≤ (goFields line).length →
      parseAddress ((goFields line).getD 1 "") = .ok (sa, sp) →
      parseAddress ((goFields line).getD 2 "") = .ok (da, dp) →
      ∃ conn, parseTCPRow lp pm r line = some conn ∧
        conn.state = connectionState ((goFields line).getD 3 "")) := by
  refine ⟨⟨rfl, rfl, rfl, rfl, rfl, rfl, rfl, rfl, rfl, rfl, rfl⟩,
    connectionState_default, ?_⟩
  intro lp pm r line sa sp da dp hn h1 h2
  obtain ⟨conn, hc, hs, _, _, _, _⟩ :=
    parseTCPRow_emits lp pm r line sa sp da dp hn h1 h2
  exact ⟨conn, hc, hs⟩

/-- Witness for C2: the unlisted code `FF` maps to `UNKNOWN`, and a
row carrying it is still emitted. -/
theorem connectionState_complete_witness :
    connectionState "FF" = "UNKNOWN" ∧
    (∃ conn, parseTCPRow none [] (fun _ _ => "unknown")
        "0: 0100007F:0016 00000000:0000 FF 0 0 0 0 0 0" = some conn ∧
      conn.state = connectionState
        ((goFields "0: 0100007F:0016 00000000:0000 FF 0 0 0 0 0 0").getD
          3 "")) :=
  ⟨connectionState_complete.2.1 "FF" (by decide),
   connectionState_complete.2.2 none [] (fun _ _ => "unknown")
     "0: 0100007F:0016 00000000:0000 FF 0 0 0 0 0 0"
     "127.0.0.1" "22" "0.0.0.0" "0" (by decide) rfl rfl⟩

/-! ## C3 -/

/-- C3: a collection pass reads the TCP table twice — the LISTEN-port
set `listenPortsOf` is harvested by a first read and the samples come
from a second read with that set — and a TCP sample's direction is
`incoming` exactly when its source port is in the harvested set,
`outgoing` otherwise, while every UDP sample's direction is
`unknown`. -/
theorem collect_direction (tcp udp : Option (List String))
    (pm : List (String × String)) (r : String → String → String)
    (m : Metric) (hm : m ∈ collect tcp udp pm r) :
    (m.protocol = "tcp" ∨ m.protocol = "udp") ∧
    (m.protocol = "tcp" →
      (m.direction = "incoming" ↔
        m.sourcePort ∈ listenPortsOf tcp pm r) ∧
      (m.direction = "incoming" ∨ m.direction = "outgoing")) ∧
    (m.protocol = "udp" → m.direction = "unknown") := by
  rcases List.mem_append.mp hm with h | h
  · rw [collectTCP] at h
    rcases htc : getTCPConnections tcp (some (listenPortsOf tcp pm r))
        pm r with _ | conns
    · rw [htc] at h; simp at h
    · rw [htc] at h
      obtain ⟨c, hcmem, rfl⟩ := List.mem_map.mp h
      have hdir : (tcpMetric (listenPortsOf tcp pm r) c).direction =
          if (listenPortsOf tcp pm r).contains c.sourcePort then
            "incoming"
          else "outgoing" := rfl
      have hpr : (tcpMetric (listenPortsOf tcp pm r) c).protocol =
          "tcp" := rfl
      have hsp : (tcpMetric (listenPortsOf tcp pm r) c).sourcePort =
          c.sourcePort := rfl
      have hmemiff : c.sourcePort ∈ listenPortsOf tcp pm r ↔
          (listenPortsOf tcp pm r).contains c.sourcePort = true :=
        ⟨fun hmem => List.elem_iff.mpr hmem,
         fun hb => List.elem_iff.mp hb⟩
      refine ⟨Or.inl hpr, fun _ => ⟨?_, ?_⟩, fun hup => ?_⟩
      · rw [hdir, hsp]
        cases hb : (listenPortsOf tcp pm r).contains c.sourcePort
        · simp only [Bool.false_eq_true, if_false]
          constructor
          · intro hcontra; exact absurd hcontra (by decide)
          · intro hmem
            rw [hmemiff] at hmem
            rw [hmem] at hb
            exact absurd hb (by decide)
        · simp only [if_true]
          exact ⟨fun _ => hmemiff.mpr hb, fun _ => trivial⟩
      · rw [hdir]
        cases hb : (listenPortsOf tcp pm r).contains c.sourcePort
        · right; simp
        · left; simp
      · rw [hpr] at hup
        exact absurd hup (by decide)
  · rw [collectUDP] at h
    rcases huc : getUDPConnections udp r with _ | conns
    · rw [huc] at h; simp at h
    · rw [huc] at h
      obtain ⟨c, hcmem, rfl⟩ := List.mem_map.mp h
      have hpr : (udpMetric c).protocol = "udp" := rfl
      refine ⟨Or.inr hpr, fun htc => ?_, fun _ => rfl⟩
      rw [hpr] at htc
      exact absurd htc (by decide)

/-- A two-row TCP table: a LISTEN row on port 22 and an ESTABLISHED
row whose source port is 22. -/
def tcpTableX : List String :=
  ["  sl  local_address rem_address   st tx",
   "   0: 0100007F:0016 00000000:0000 0A 0 0 0 0 0 0",
   "   1: 0A00000A:0016 0B00000B:1F90 01 0 0 0 0 0 0"]

/-- A one-row UDP table. -/
def udpTableX : List String :=
  ["  sl  local_address rem_address   st tx",
   "   0: 0100007F:0035 00000000:0000 07 0 0 0 0 0 0"]

/-- A constant stand-in resolver for concrete evaluations. -/
def resolveX : String → String → String := fun _ _ => "unknown"

/-- The sample the ESTABLISHED row of `tcpTableX` produces. -/
def metricX : Metric :=
  ⟨"10.0.0.10", "22", "11.0.0.11", "8080", "ESTABLISHED", "unknown",
   "tcp", "incoming", ""⟩

/-- Witness for C3: on `tcpTableX` the ESTABLISHED sample with source
port 22 is classified `incoming` because 22 is a harvested LISTEN
port. -/
theorem collect_direction_witness :
    (metricX.protocol = "tcp" ∨ metricX.protocol = "udp") ∧
    (metricX.protocol = "tcp" →
      (metricX.direction = "incoming" ↔
        metricX.sourcePort ∈ listenPortsOf (some tcpTableX) [] resolveX) ∧
      (metricX.direction = "incoming" ∨ metricX.direction = "outgoing")) ∧
    (metricX.protocol = "udp" → metricX.direction = "unknown") :=
  collect_direction (some tcpTableX) (some udpTableX) [] resolveX metricX
    (by decide)

/-! ## C4 -/

/-- C4 counterexample: both table sources are available (header-only
tables, not `none`), yet the pass yields an empty record set — so an
empty record set does not imply that every table source was
unavailable. -/
theorem collect_empty_with_available_sources :
    collect (some ["hdr"]) (some ["hdr"]) [] resolveX = [] ∧
    (some ["hdr"] : Option (List String)) ≠ none ∧
    (some ["hdr"] : Option (List String)) ≠ none :=
  ⟨rfl, fun h => Option.noConfusion h, fun h => Option.noConfusion h⟩

/-- C4 (amended): an unopenable protocol source contributes zero
records while the pass still returns every record of the other
protocol, and when every source is unavailable the pass yields the
empty set; one protocol's failure never aborts the pass. -/
theorem collect_protocol_independence (tcp udp : Option (List String))
    (pm : List (String × String)) (r : String → String → String) :
    (tcp = none → collect tcp udp pm r = collectUDP udp r) ∧
    (udp = none → collect tcp udp pm r =
      collectTCP tcp (listenPortsOf tcp pm r) pm r) ∧
    (tcp = none → udp = none → collect tcp udp pm r = []) ∧
    (∀ conns, tcp = none → getUDPConnections udp r = some conns →
      (collect tcp udp pm r).length = conns.length) := by
  refine ⟨?_, ?_, ?_, ?_⟩
  · rintro rfl
    simp [collect, collectTCP, getTCPConnections, listenPortsOf]
  · rintro rfl
    simp [collect, collectUDP, getUDPConnections]
  · rintro rfl rfl
    simp [collect, collectTCP, collectUDP, getTCPConnections,
      getUDPConnections, listenPortsOf]
  · rintro conns rfl hu
    simp [collect, collectTCP, collectUDP, getTCPConnections,
      listenPortsOf, hu]

/-- Witness for C4 (amended): with the TCP source unavailable, the
pass still returns exactly the one UDP record of `udpTableX`. -/
theorem collect_protocol_independence_witness :
    collect none (some udpTableX) [] resolveX =
      collectUDP (some udpTableX) resolveX ∧
    (collect none (some udpTableX) [] resolveX).length =
      ([⟨"127.0.0.1", "53", "0.0.0.0", "0", "LISTEN", "unknown",
         ""⟩] : List TCPConn).length :=
  ⟨(collect_protocol_independence none (some udpTableX) []
      resolveX).1 rfl,
   (collect_protocol_independence none (some udpTableX) []
      resolveX).2.2.2
     [⟨"127.0.0.1", "53", "0.0.0.0", "0", "LISTEN", "unknown", ""⟩]
     rfl rfl⟩

theorem hexVal_lt (c : Char) (v : Nat) (h : hexVal? c = some v) :
    v < 16 := by
  rw [hexVal?] at h
  by_cases h1 : '0' ≤ c ∧ c ≤ '9'
  · rw [if_pos h1] at h
    obtain ⟨ha, hb⟩ := h1
    rw [Char.le_def] at ha hb
    have ha' : '0'.toNat ≤ c.toNat := ha
    have hb' : c.toNat ≤ '9'.toNat := hb
    have e0 : '0'.toNat = 48 := rfl
    have e9 : '9'.toNat = 57 := rfl
    have hv := Option.some.inj h
    omega
  · rw [if_neg h1] at h
    by_cases h2 : 'a' ≤ c ∧ c ≤ 'f'
    · rw [if_pos h2] at h
      obtain ⟨ha, hb⟩ := h2
      rw [Char.le_def] at ha hb
      have ha' : 'a'.toNat ≤ c.toNat := ha
      have hb' : c.toNat ≤ 'f'.toNat := hb
      have e0 : 'a'.toNat = 97 := rfl
      have e9 : 'f'.toNat = 102 := rfl
      have hv := Option.some.inj h
      omega
    · rw [if_neg h2] at h
      by_cases h3 : 'A' ≤ c ∧ c ≤ 'F'
      · rw [if_pos h3] at h
        obtain ⟨ha, hb⟩ := h3
        rw [Char.le_def] at ha hb
        have ha' : 'A'.toNat ≤ c.toNat := ha
        have hb' : c.toNat ≤ 'F'.toNat := hb
        have e0 : 'A'.toNat = 65 := rfl
        have e9 : 'F'.toNat = 70 := rfl
        have hv := Option.some.inj h
        omega
      · rw [if_neg h3] at h
        exact absurd h (by simp)

theorem hexNatAux_bound : ∀ (cs : List Char) (acc n : Nat),
    hexNatAux acc cs = some n → n < (acc + 1) * 16 ^ cs.length
  | [], acc, n, h => by
    rw [hexNatAux] at h
    obtain rfl := Option.some.inj h
    simpa using Nat.lt_succ_self acc
  | c :: rest, acc, n, h => by
    rcases hv : hexVal? c with _ | v
    · rw [hexNatAux, hv] at h; exact absurd h (by simp)
    · simp only [hexNatAux, hv] at h
      have hb := hexNatAux_bound rest (acc * 16 + v) n h
      have hvlt := hexVal_lt c v hv
      have hstep : (acc * 16 + v + 1) * 16 ^ rest.length ≤
          (acc + 1) * 16 ^ (rest.length + 1) := by
        have h1 : acc * 16 + v + 1 ≤ (acc + 1) * 16 := by omega
        calc (acc * 16 + v + 1) * 16 ^ rest.length
            ≤ ((acc + 1) * 16) * 16 ^ rest.length :=
              Nat.mul_le_mul_right _ h1
          _ = (acc + 1) * 16 ^ (rest.length + 1) := by ring
      simp only [List.length_cons]
      exact Nat.lt_of_lt_of_le hb hstep

theorem parsePortDigits_pos_bound (ds : List Char) (p : Int)
    (h : parsePortDigits false ds = some p) :
    ∃ n : Nat, p = (n : Int) ∧ n < 16 ^ ds.length := by
  rw [parsePortDigits] at h
  split at h
  · exact absurd h (by simp)
  · rcases hn : hexNat? ds with _ | v
    · rw [hn] at h; exact absurd h (by simp)
    · rw [hn] at h
      simp only [Bool.false_eq_true, if_false] at h
      split at h
      · obtain rfl := Option.some.inj h
        have := hexNatAux_bound ds 0 v hn
        exact ⟨v, rfl, by simpa using this⟩
      · exact absurd h (by simp)

theorem parsePortHex_hex_digits (pp : List Char) (port : Int)
    (hall : ∀ c ∈ pp, (hexVal? c).isSome)
    (h : parsePortHex pp = some port) :
    ∃ n : Nat, port = (n : Int) ∧ n < 16 ^ pp.length := by
  match pp with
  | [] => rw [parsePortHex] at h; exact absurd h (by simp)
  | c :: rest =>
    have hc : (hexVal? c).isSome := hall c (by simp)
    have hcp : ¬ c = '+' := fun e => by
      rw [e] at hc; exact absurd hc (by decide)
    have hcm : ¬ c = '-' := fun e => by
      rw [e] at hc; exact absurd hc (by decide)
    rw [parsePortHex, if_neg hcp, if_neg hcm] at h
    exact parsePortDigits_pos_bound (c :: rest) port h

theorem parseTCPRow_inv (lp : Option (List String))
    (pm : List (String × String)) (r : String → String → String)
    (line : String) (conn : TCPConn)
    (h : parseTCPRow lp pm r line = some conn) :
    10 ≤ (goFields line).length ∧
    parseAddress ((goFields line).getD 1 "") =
      .ok (conn.sourceAddress, conn.sourcePort) ∧
    parseAddress ((goFields line).getD 2 "") =
      .ok (conn.destinationAddress, conn.destinationPort) := by
  simp only [parseTCPRow] at h
  split at h
  · exact absurd h (by simp)
  · rename_i hlen
    refine ⟨by omega, ?_⟩
    rcases ha : parseAddress ((goFields line).getD 1 "") with e | ⟨sa, sp⟩
    · rw [ha] at h; exact absurd h (by simp)
    · rw [ha] at h
      rcases hb : parseAddress ((goFields line).getD 2 "") with e | ⟨da, dp⟩
      · rw [hb] at h; exact absurd h (by simp)
      · rw [hb] at h
        obtain rfl := (Option.some.inj h)
        exact ⟨by simpa using ha, by simpa using hb⟩

/-! ## C9 -/

/-- The kernel table's port shape: after the colon, exactly 4 hex
digits. -/
def kernelPortShape (addr : String) : Bool :=
  match goSplitChar ':' addr.data with
  | [_, pp] => pp.length == 4 && pp.all (fun c => (hexVal? c).isSome)
  | _ => false

theorem parseAddress_port_range (addr a p : String)
    (hok : parseAddress addr = .ok (a, p))
    (h4 : kernelPortShape addr = true) :
    ∃ n : Nat, n ≤ 65535 ∧ p = Nat.repr n := by
  rw [kernelPortShape] at h4
  rw [parseAddress] at hok
  rcases hsp : goSplitChar ':' addr.data with _ | ⟨ipp, _ | ⟨pp, _ | _⟩⟩
  · rw [hsp] at h4; simp at h4
  · rw [hsp] at h4; simp at h4
  · simp only [hsp] at hok h4
    have h4' := h4
    simp only [Bool.and_eq_true, beq_iff_eq, List.all_eq_true] at h4'
    obtain ⟨hlen4, hall⟩ := h4'
    rcases hd : hexDecodePairs ipp with e | bs
    · simp only [hd] at hok
      exact Except.noConfusion hok
    · simp only [hd] at hok
      rcases hp : parsePortHex pp with _ | port
      · simp only [hp] at hok
        exact Except.noConfusion hok
      · simp only [hp] at hok
        obtain ⟨n, rfl, hn⟩ := parsePortHex_hex_digits pp port hall hp
        rw [hlen4] at hn
        split at hok
        · have hpair := Except.ok.inj hok
          have hp2 : p = Int.repr (n : Int) :=
            ((Prod.mk.injEq _ _ _ _).mp hpair).2.symm
          refine ⟨n, by omega, ?_⟩
          rw [hp2]
          rfl
        · split at hok
          · exact Except.noConfusion hok
          · exact Except.noConfusion hok
  · rw [hsp] at h4; simp at h4

/-- C9: every connection record's port labels are decimal strings of
values between 0 and 65535, obtained by parsing the 4-hex-digit port
field base-16 and formatting it base-10. -/
theorem record_ports_in_range (lp : Option (List String))
    (pm : List (String × String)) (r : String → String → String)
    (line : String) (conn : TCPConn)
    (hrow : parseTCPRow lp pm r line = some conn)
    (h1 : kernelPortShape ((goFields line).getD 1 "") = true)
    (h2 : kernelPortShape ((goFields line).getD 2 "") = true) :
    (∃ n : Nat, n ≤ 65535 ∧ conn.sourcePort = Nat.repr n) ∧
    (∃ n : Nat, n ≤ 65535 ∧ conn.destinationPort = Nat.repr n) := by
  obtain ⟨_, ha, hb⟩ := parseTCPRow_inv lp pm r line conn hrow
  exact ⟨parseAddress_port_range _ _ _ ha h1,
         parseAddress_port_range _ _ _ hb h2⟩

/-- The record the ESTABLISHED row of `tcpTableX` decodes to. -/
def connX : TCPConn :=
  ⟨"10.0.0.10", "22", "11.0.0.11", "8080", "ESTABLISHED", "unknown", ""⟩

/-- Witness for C9 at the concrete ESTABLISHED row. -/
theorem record_ports_in_range_witness :
    (∃ n : Nat, n ≤ 65535 ∧ connX.sourcePort = Nat.repr n) ∧
    (∃ n : Nat, n ≤ 65535 ∧ connX.destinationPort = Nat.repr n) :=
  record_ports_in_range none [] resolveX
    "   1: 0A00000A:0016 0B00000B:1F90 01 0 0 0 0 0 0" connX
    rfl (by decide) (by decide)

/-! ## C8 -/

theorem hexDecodePairs_ok_chars : ∀ (l : List Char) (bs : List Nat),
    hexDecodePairs l = .ok bs → ∀ c ∈ l, (hexVal? c).isSome
  | [], _, _, c, hc => by simp at hc
  | [c0], bs, h, c, hc => by
    rcases hv : hexVal? c0 with _ | v <;>
      simp only [hexDecodePairs, hv] at h <;> exact Except.noConfusion h
  | c1 :: c2 :: rest, bs, h, c, hc => by
    rcases hv1 : hexVal? c1 with _ | v1
    · simp only [hexDecodePairs, hv1] at h; exact Except.noConfusion h
    · rcases hv2 : hexVal? c2 with _ | v2
      · simp only [hexDecodePairs, hv1, hv2] at h
        exact Except.noConfusion h
      · simp only [hexDecodePairs, hv1, hv2] at h
        rcases hr : hexDecodePairs rest with e | bs2
        · rw [hr] at h; exact Except.noConfusion h
        · rcases List.mem_cons.mp hc with rfl | hc2
          · simp [hv1]
          · rcases List.mem_cons.mp hc2 with rfl | hc3
            · simp [hv2]
            · exact hexDecodePairs_ok_chars rest bs2 hr c hc3

/-- C8 counterexample: `0100007F:-16` has the non-hex character `-`
in its port part, yet `parseAddress` succeeds (returning port
`-22`) — a leading sign is accepted by the base-16 port parse. -/
theorem parseAddress_nonhex_port_accepted :
    parseAddress "0100007F:-16" = .ok ("127.0.0.1", "-22") ∧
    hexVal? '-' = none ∧ '-' ∈ "-16".data :=
  ⟨rfl, rfl, by decide⟩

/-- C8 (amended): `parseAddress` fails with a distinct error for each
malformed shape — not splitting on `:` into exactly two parts, a
non-hex digit in the IP part, a port part rejected by the signed
base-16 parse (a leading `+`/`-` sign followed by hex digits is
accepted), a 16-byte decode failing explicitly as unsupported IPv6,
any other byte count failing as an invalid length — and the table
reader skips rows with fewer than 10 fields and rows whose addresses
fail to decode, continuing with the remaining rows. -/
theorem parseAddress_error_shapes :
    (∀ addr : String, (goSplitChar ':' addr.data).length ≠ 2 →
      parseAddress addr = .error .invalidFormat) ∧
    (∀ (addr : String) (ipp pp : List Char),
      goSplitChar ':' addr.data = [ipp, pp] →
      (∃ c ∈ ipp, hexVal? c = none) →
      ∃ e, parseAddress addr = .error (.hexError e)) ∧
    (∀ (addr : String) (ipp pp : List Char) (bs : List Nat),
      goSplitChar ':' addr.data = [ipp, pp] →
      hexDecodePairs ipp = .ok bs → parsePortHex pp = none →
      parseAddress addr = .error .portError) ∧
    (∀ (addr : String) (ipp pp : List Char) (bs : List Nat) (port : Int),
      goSplitChar ':' addr.data = [ipp, pp] →
      hexDecodePairs ipp = .ok bs → parsePortHex pp = some port →
      bs.length = 16 → parseAddress addr = .error .ipv6Unsupported) ∧
    (∀ (addr : String) (ipp pp : List Char) (bs : List Nat) (port : Int),
      goSplitChar ':' addr.data = [ipp, pp] →
      hexDecodePairs ipp = .ok bs → parsePortHex pp = some port →
      bs.length ≠ 4 → bs.length ≠ 16 →
      parseAddress addr = .error (.invalidIPLength bs.length)) ∧
    (∀ (e : HexErr) (n : Nat),
      DecodeErr.invalidFormat ≠ .hexError e ∧
      DecodeErr.invalidFormat ≠ .portError ∧
      DecodeErr.invalidFormat ≠ .ipv6Unsupported ∧
      DecodeErr.invalidFormat ≠ .invalidIPLength n ∧
      DecodeErr.hexError e ≠ .portError ∧
      DecodeErr.hexError e ≠ .ipv6Unsupported ∧
      DecodeErr.hexError e ≠ .invalidIPLength n ∧
      DecodeErr.portError ≠ .ipv6Unsupported ∧
      DecodeErr.portError ≠ .invalidIPLength n ∧
      DecodeErr.ipv6Unsupported ≠ .invalidIPLength n) ∧
    (∀ (lp : Option (List String)) (pm : List (String × String))
       (r : String → String → String) (line : String),
      (goFields line).length < 10 → parseTCPRow lp pm r line = none) ∧
    (∀ (lp : Option (List String)) (pm : List (String × String))
       (r : String → String → String) (line : String) (e : DecodeErr),
      parseAddress ((goFields line).getD 1 "") = .error e →
      parseTCPRow lp pm r line = none) ∧
    (∀ (lp : Option (List String)) (pm : List (String × String))
       (r : String → String → String) (line sa sp : String)
       (e : DecodeErr),
      parseAddress ((goFields line).getD 1 "") = .ok (sa, sp) →
      parseAddress ((goFields line).getD 2 "") = .error e →
      parseTCPRow lp pm r line = none) ∧
    (∀ (lp : Option (List String)) (pm : List (String × String))
       (r : String → String → String) (line : String)
       (rest : List String),
      parseTCPRow lp pm r line = none →
      (line :: rest).filterMap (parseTCPRow lp pm r) =
        rest.filterMap (parseTCPRow lp pm r)) ∧
    (∀ (lp : Option (List String)) (pm : List (String × String))
       (r : String → String → String) (lines : List String),
      getTCPConnections (some lines) lp pm r =
        some ((lines.drop 1).filterMap (parseTCPRow lp pm r))) := by
  refine ⟨?_, ?_, ?_, ?_, ?_, ?_, ?_, ?_, ?_, ?_, ?_⟩
  · intro addr hlen
    rcases h : goSplitChar ':' addr.data with _ | ⟨x, _ | ⟨y, _ | ⟨z, t⟩⟩⟩
    · simp only [parseAddress, h]
    · simp only [parseAddress, h]
    · rw [h] at hlen; simp at hlen
    · simp only [parseAddress, h]
  · intro addr ipp pp hsp hbad
    rcases hd : hexDecodePairs ipp with e | bs
    · exact ⟨e, by simp only [parseAddress, hsp, hd]⟩
    · obtain ⟨c, hc, hcn⟩ := hbad
      have := hexDecodePairs_ok_chars ipp bs hd c hc
      rw [hcn] at this
      exact absurd this (by decide)
  · intro addr ipp pp bs hsp hd hp
    simp only [parseAddress, hsp, hd, hp]
  · intro addr ipp pp bs port hsp hd hp h16
    simp only [parseAddress, hsp, hd, hp, h16]
    norm_num
  · intro addr ipp pp bs port hsp hd hp h4 h16
    simp only [parseAddress, hsp, hd, hp, if_neg h4, if_neg h16]
  · intro e n
    refine ⟨?_, ?_, ?_, ?_, ?_, ?_, ?_, ?_, ?_, ?_⟩ <;> simp
  · intro lp pm r line hlen
    simp [parseTCPRow, hlen]
  · intro lp pm r line e he
    simp only [parseTCPRow]
    split
    · rfl
    · simp only [he]
  · intro lp pm r line sa sp e ha he
    simp only [parseTCPRow]
    split
    · rfl
    · simp only [ha, he]
  · intro lp pm r line rest h
    simp [List.filterMap_cons, h]
  · intro lp pm r lines
    rfl

/-- Witness for C8 (amended) at one concrete input per error shape,
plus one skipped short row. -/
theorem parseAddress_error_shapes_witness :
    parseAddress "0100007F" = .error .invalidFormat ∧
    (∃ e, parseAddress "0100007G:0016" = .error (.hexError e)) ∧
    parseAddress "0100007F:XYZ" = .error .portError ∧
    parseAddress "0000000000000000FFFF00000100007F:0016" =
      .error .ipv6Unsupported ∧
    parseAddress "010000:0016" =
      .error (.invalidIPLength ([1, 0, 0] : List Nat).length) ∧
    parseTCPRow none [] resolveX "too short" = none :=
  ⟨parseAddress_error_shapes.1 "0100007F" (by decide),
   parseAddress_error_shapes.2.1 "0100007G:0016" "0100007G".data
     "0016".data rfl ⟨'G', by decide, rfl⟩,
   parseAddress_error_shapes.2.2.1 "0100007F:XYZ" "0100007F".data
     "XYZ".data [1, 0, 0, 127] rfl rfl rfl,
   parseAddress_error_shapes.2.2.2.1
     "0000000000000000FFFF00000100007F:0016"
     "0000000000000000FFFF00000100007F".data "0016".data
     [0, 0, 0, 0, 0, 0, 0, 0, 255, 255, 0, 0, 1, 0, 0, 127] 22
     rfl rfl rfl rfl,
   parseAddress_error_shapes.2.2.2.2.1 "010000:0016" "010000".data
     "0016".data [1, 0, 0] 22 rfl rfl rfl (by decide) (by decide),
   parseAddress_error_shapes.2.2.2.2.2.2.1 none [] resolveX
     "too short" (by decide)⟩

/-! ## C10 and C5: the interface cache never maps loopback keys -/

theorem digitChar_ne_dot (m : Nat) (hm : m < 10) :
    Nat.digitChar m ≠ '.' := by
  interval_cases m <;> decide

theorem toDigitsCore_ne_dot : ∀ (f n : Nat) (ds : List Char),
    (∀ c ∈ ds, c ≠ '.') → ∀ c ∈ Nat.toDigitsCore 10 f n ds, c ≠ '.'
  | 0, _, _, hds, c, hc => hds c hc
  | f + 1, n, ds, hds, c, hc => by
    have hdig : n % 10 < 10 := Nat.mod_lt n (by omega)
    rw [Nat.toDigitsCore] at hc
    split at hc
    · rcases List.mem_cons.mp hc with rfl | hmem
      · exact digitChar_ne_dot _ hdig
      · exact hds c hmem
    · refine toDigitsCore_ne_dot f (n / 10)
        (Nat.digitChar (n % 10) :: ds) ?_ c hc
      intro d hd
      rcases List.mem_cons.mp hd with rfl | hmem
      · exact digitChar_ne_dot _ hdig
      · exact hds d hmem

theorem repr_ne_dot (n : Nat) : ∀ c ∈ (Nat.repr n).data, c ≠ '.' := by
  intro c hc
  have hd : (Nat.repr n).data = Nat.toDigits 10 n := rfl
  rw [hd, Nat.toDigits] at hc
  exact toDigitsCore_ne_dot (n + 1) n [] (by simp) c hc

theorem takeWhile_append_stop (p : Char → Bool) :
    ∀ (l1 : List Char) (x : Char) (l2 : List Char),
    (∀ c ∈ l1, p c = true) → p x = false →
    List.takeWhile p (l1 ++ x :: l2) = l1
  | [], x, l2, _, hx => by simp [List.takeWhile_cons, hx]
  | c :: rest, x, l2, h1, hx => by
    have hc : p c = true := h1 c (by simp)
    simp [List.takeWhile_cons, hc,
      takeWhile_append_stop p rest x l2
        (fun d hd => h1 d (by simp [hd])) hx]

theorem ipDotted_first_octet (a b c d : Nat) :
    List.takeWhile (fun ch => ch != '.') (ipDotted a b c d).data =
      (Nat.repr a).data := by
  have hdata : (ipDotted a b c d).data =
      (Nat.repr a).data ++ '.' ::
        ((Nat.repr b).data ++ '.' ::
          ((Nat.repr c).data ++ '.' :: (Nat.repr d).data)) := by
    simp [ipDotted, String.data_append]
  rw [hdata]
  apply takeWhile_append_stop
  · intro ch hch
    simpa using repr_ne_dot a ch hch
  · rfl

set_option maxRecDepth 8000 in
theorem repr_data_127 :
    ∀ a : Fin 256, (Nat.repr a.val).data = ['1', '2', '7'] →
      a.val = 127 := by
  decide

theorem ipDotted_ne_loopback (a b c d : Nat) (ha : a < 256)
    (hne : a ≠ 127) : ipDotted a b c d ≠ "127.0.0.1" := by
  intro he
  have h1 := ipDotted_first_octet a b c d
  rw [he] at h1
  have h2 : List.takeWhile (fun ch => ch != '.')
      ("127.0.0.1" : String).data = ['1', '2', '7'] := rfl
  rw [h2] at h1
  exact hne (repr_data_127 ⟨a, ha⟩ h1.symm)

theorem mem_mapInsert (m : List (String × String)) (k v : String) :
    ∀ kv ∈ mapInsert m k v, kv ∈ m ∨ kv = (k, v) := by
  intro kv hkv
  rw [mapInsert] at hkv
  split at hkv
  · obtain ⟨kv0, hkv0, hmap⟩ := List.mem_map.mp hkv
    by_cases hk : (kv0.1 == k) = true
    · rw [if_pos hk] at hmap
      right
      rw [← hmap, eq_of_beq hk]
    · rw [if_neg hk] at hmap
      left
      rw [← hmap]
      exact hkv0
  · rcases List.mem_append.mp hkv with h | h
    · exact Or.inl h
    · exact Or.inr (by simpa using h)

theorem nodupKeys_mapInsert (m : List (String × String)) (k v : String)
    (h : (m.map Prod.fst).Nodup) :
    ((mapInsert m k v).map Prod.fst).Nodup := by
  rw [mapInsert]
  split
  · have hkeys : ((m.map
        (fun kv => if kv.1 == k then (kv.1, v) else kv)).map Prod.fst) =
        m.map Prod.fst := by
      rw [List.map_map]
      apply List.map_congr_left
      intro kv _
      show (if (kv.1 == k) = true then (kv.1, v) else kv).1 = kv.1
      split <;> rfl
    rw [hkeys]
    exact h
  · rename_i hany
    rw [List.map_append]
    rw [List.nodup_append]
    refine ⟨h, by simp, ?_⟩
    intro x hx hx1
    obtain ⟨kv, hkv, hfst⟩ := List.mem_map.mp hx
    have hxk : x = k := by simpa using hx1
    exact hany (List.any_eq_true.mpr
      ⟨kv, hkv, by rw [hfst, hxk]; exact beq_self_eq_true k⟩)

theorem mem_addAddrEntries (name : String) : ∀ (as : List NetAddr)
    (m : List (String × String)) (kv : String × String),
    kv ∈ addAddrEntries name m as → kv ∈ m ∨
      ∃ a ∈ as, ∃ x y z w, a.v4 = some (x, y, z, w) ∧ x ≠ 127 ∧
        kv = (ipDotted x y z w, name)
  | [], _, _, h => Or.inl h
  | a :: rest, m, kv, h => by
    obtain ⟨kind, v4, subnet⟩ := a
    have step : ∀ m' : List (String × String),
        kv ∈ addAddrEntries name m' rest → kv ∈ m' ∨
          ∃ a ∈ (⟨kind, v4, subnet⟩ : NetAddr) :: rest,
            ∃ x y z w, a.v4 = some (x, y, z, w) ∧ x ≠ 127 ∧
              kv = (ipDotted x y z w, name) := by
      intro m' h'
      rcases mem_addAddrEntries name rest m' kv h' with hm | hex
      · exact Or.inl hm
      · obtain ⟨a2, ha2, hrest⟩ := hex
        exact Or.inr ⟨a2, List.mem_cons_of_mem _ ha2, hrest⟩
    cases kind with
    | other => exact step m (by simpa [addAddrEntries] using h)
    | ipNet =>
      rcases v4 with _ | ⟨x, y, z, w⟩
      · exact step m (by simpa [addAddrEntries] using h)
      · by_cases hx : x = 127
        · exact step m (by simpa [addAddrEntries, hx] using h)
        · rcases step (mapInsert m (ipDotted x y z w) name)
            (by simpa [addAddrEntries, hx] using h) with hm | hex
          · rcases mem_mapInsert m (ipDotted x y z w) name kv hm
              with hm2 | hkv
            · exact Or.inl hm2
            · exact Or.inr ⟨_, List.mem_cons_self _ _,
                x, y, z, w, rfl, hx, hkv⟩
          · exact Or.inr hex
    | ipAddr =>
      rcases v4 with _ | ⟨x, y, z, w⟩
      · exact step m (by simpa [addAddrEntries] using h)
      · by_cases hx : x = 127
        · exact step m (by simpa [addAddrEntries, hx] using h)
        · rcases step (mapInsert m (ipDotted x y z w) name)
            (by simpa [addAddrEntries, hx] using h) with hm | hex
          · rcases mem_mapInsert m (ipDotted x y z w) name kv hm
              with hm2 | hkv
            · exact Or.inl hm2
            · exact Or.inr ⟨_, List.mem_cons_self _ _,
                x, y, z, w, rfl, hx, hkv⟩
          · exact Or.inr hex

theorem nodupKeys_addAddrEntries (name : String) :
    ∀ (as : List NetAddr) (m : List (String × String)),
    (m.map Prod.fst).Nodup →
    ((addAddrEntries name m as).map Prod.fst).Nodup
  | [], _, h => h
  | a :: rest, m, h => by
    obtain ⟨kind, v4, subnet⟩ := a
    cases kind with
    | other => exact nodupKeys_addAddrEntries name rest m h
    | ipNet =>
      rcases v4 with _ | ⟨x, y, z, w⟩
      · exact nodupKeys_addAddrEntries name rest m h
      · by_cases hx : x = 127
        · subst hx
          exact nodupKeys_addAddrEntries name rest m h
        · have hunf : addAddrEntries name m
              (⟨AddrKind.ipNet, some (x, y, z, w), subnet⟩ :: rest) =
              addAddrEntries name (mapInsert m (ipDotted x y z w) name)
                rest := by
            simp [addAddrEntries, hx]
          rw [hunf]
          exact nodupKeys_addAddrEntries name rest _
            (nodupKeys_mapInsert m _ name h)
    | ipAddr =>
      rcases v4 with _ | ⟨x, y, z, w⟩
      · exact nodupKeys_addAddrEntries name rest m h
      · by_cases hx : x = 127
        · subst hx
          exact nodupKeys_addAddrEntries name rest m h
        · have hunf : addAddrEntries name m
              (⟨AddrKind.ipAddr, some (x, y, z, w), subnet⟩ :: rest) =
              addAddrEntries name (mapInsert m (ipDotted x y z w) name)
                rest := by
            simp [addAddrEntries, hx]
          rw [hunf]
          exact nodupKeys_addAddrEntries name rest _
            (nodupKeys_mapInsert m _ name h)

theorem mem_buildIfaceMap : ∀ (l : List NetIface)
    (m : List (String × String)) (kv : String × String),
    kv ∈ buildIfaceMap m l → kv ∈ m ∨
      ∃ i ∈ l, i.up = true ∧ i.loopback = false ∧
        ∃ as, i.addrs = some as ∧ ∃ a ∈ as, ∃ x y z w,
          a.v4 = some (x, y, z, w) ∧ x ≠ 127 ∧
          kv = (ipDotted x y z w, i.name)
  | [], _, _, h => Or.inl h
  | i :: rest, m, kv, h => by
    have step : ∀ m' : List (String × String),
        kv ∈ buildIfaceMap m' rest → kv ∈ m' ∨
          ∃ i2 ∈ i :: rest, i2.up = true ∧ i2.loopback = false ∧
            ∃ as, i2.addrs = some as ∧ ∃ a ∈ as, ∃ x y z w,
              a.v4 = some (x, y, z, w) ∧ x ≠ 127 ∧
              kv = (ipDotted x y z w, i2.name) := by
      intro m' h'
      rcases mem_buildIfaceMap rest m' kv h' with hm | hex
      · exact Or.inl hm
      · obtain ⟨i2, hi2, hrest⟩ := hex
        exact Or.inr ⟨i2, List.mem_cons_of_mem _ hi2, hrest⟩
    obtain ⟨nm, up, loop, addrs⟩ := i
    by_cases hskip : (!up || loop) = true
    · exact step m (by simpa [buildIfaceMap, hskip] using h)
    · have hup : up = true := by
        rcases up <;> rcases loop <;> simp_all
      have hloop : loop = false := by
        rcases up <;> rcases loop <;> simp_all
      rcases addrs with _ | as
      · exact step m (by simpa [buildIfaceMap, hskip] using h)
      · rcases step (addAddrEntries nm m as)
          (by simpa [buildIfaceMap, hskip] using h) with hm | hex
        · rcases mem_addAddrEntries nm as m kv hm with hm2 | hex2
          · exact Or.inl hm2
          · obtain ⟨a, ha, x, y, z, w, hv4, hx, hkv⟩ := hex2
            exact Or.inr ⟨⟨nm, up, loop, some as⟩,
              List.mem_cons_self _ _, hup, hloop, as, rfl,
              a, ha, x, y, z, w, hv4, hx, hkv⟩
        · exact Or.inr hex

theorem nodupKeys_buildIfaceMap : ∀ (l : List NetIface)
    (m : List (String × String)),
    (m.map Prod.fst).Nodup → ((buildIfaceMap m l).map Prod.fst).Nodup
  | [], _, h => h
  | i :: rest, m, h => by
    obtain ⟨nm, up, loop, addrs⟩ := i
    by_cases hskip : (!up || loop) = true
    · have hunf : buildIfaceMap m (⟨nm, up, loop, addrs⟩ :: rest) =
          buildIfaceMap m rest := by
        simp [buildIfaceMap, hskip]
      rw [hunf]
      exact nodupKeys_buildIfaceMap rest m h
    · rcases addrs with _ | as
      · have hunf : buildIfaceMap m (⟨nm, up, loop, none⟩ :: rest) =
            buildIfaceMap m rest := by
          simp [buildIfaceMap, hskip]
        rw [hunf]
        exact nodupKeys_buildIfaceMap rest m h
      · have hunf : buildIfaceMap m (⟨nm, up, loop, some as⟩ :: rest) =
            buildIfaceMap (addAddrEntries nm m as) rest := by
          simp [buildIfaceMap, hskip]
        rw [hunf]
        exact nodupKeys_buildIfaceMap rest _
          (nodupKeys_addAddrEntries nm as m h)

/-- Well-formedness of the enumerated interfaces: every `To4()`
result consists of byte values. -/
def wfIfaces (l : List NetIface) : Bool :=
  l.all fun i =>
    match i.addrs with
    | none => true
    | some as =>
      as.all fun a =>
        match a.v4 with
        | none => true
        | some (x, y, z, w) =>
          decide (x < 256) && decide (y < 256) && decide (z < 256) &&
            decide (w < 256)

theorem wfIfaces_bound (l : List NetIface) (hwf : wfIfaces l = true)
    (i : NetIface) (hi : i ∈ l) (as : List NetAddr)
    (has : i.addrs = some as) (a : NetAddr) (ha : a ∈ as)
    (x y z w : Nat) (hv4 : a.v4 = some (x, y, z, w)) :
    x < 256 ∧ y < 256 ∧ z < 256 ∧ w < 256 := by
  have h1 := List.all_eq_true.mp hwf i hi
  simp only [has] at h1
  have h2 := List.all_eq_true.mp h1 a ha
  simp only [hv4, Bool.and_eq_true, decide_eq_true_eq] at h2
  obtain ⟨⟨⟨hx, hy⟩, hz⟩, hw⟩ := h2
  exact ⟨hx, hy, hz, hw⟩

theorem lookup_eq_none : ∀ (m : List (String × String)) (k : String),
    (∀ kv ∈ m, kv.1 ≠ k) → List.lookup k m = none
  | [], _, _ => rfl
  | (k1, v1) :: rest, k, h => by
    have hne : k1 ≠ k := h (k1, v1) (List.mem_cons_self _ _)
    have hbeq : (k == k1) = false :=
      beq_eq_false_iff_ne.mpr (fun e => hne e.symm)
    simp only [List.lookup, hbeq]
    exact lookup_eq_none rest k
      (fun kv hkv => h kv (List.mem_cons_of_mem _ hkv))

theorem getNetworkInterfaces_no_loopback_key (l : List NetIface)
    (m : List (String × String)) (hwf : wfIfaces l = true)
    (hm : getNetworkInterfaces (some l) = some m) :
    List.lookup "127.0.0.1" m = none := by
  have hm' : m = buildIfaceMap [] l := (Option.some.inj hm).symm
  subst hm'
  apply lookup_eq_none
  intro kv hkv
  rcases mem_buildIfaceMap l [] kv hkv with hmem | hex
  · simp at hmem
  · obtain ⟨i, hi, hup, hloop, as, has, a, ha, x, y, z, w, hv4, hx,
      hkveq⟩ := hex
    obtain ⟨hxb, _, _, _⟩ :=
      wfIfaces_bound l hwf i hi as has a ha x y z w hv4
    rw [hkveq]
    exact ipDotted_ne_loopback x y z w hxb hx

theorem resolve_lo_of_no_key (env : ResolveEnv)
    (cache : List (String × String))
    (h : List.lookup "127.0.0.1" cache = none) :
    getInterfaceForIP env (some cache) "127.0.0.1" = "lo" := by
  simp [getInterfaceForIP, getInterfaceForIPInstr, resolveWithCache, h]

/-! ## C10 -/

/-- C10: every mapping `getNetworkInterfaces` builds keys the string
form of a non-loopback IPv4 address and maps it to the name of an
up, non-loopback interface; keys are unique; consequently
`127.0.0.1` is never a key, so the exact-match cache lookup cannot
pre-empt the loopback special case on a program-built cache. -/
theorem getNetworkInterfaces_invariant (l : List NetIface)
    (m : List (String × String)) (hwf : wfIfaces l = true)
    (hm : getNetworkInterfaces (some l) = some m) :
    (∀ kv ∈ m,
      (∃ x y z w : Nat, x < 256 ∧ x ≠ 127 ∧ kv.1 = ipDotted x y z w) ∧
      ∃ i ∈ l, i.name = kv.2 ∧ i.up = true ∧ i.loopback = false) ∧
    (m.map Prod.fst).Nodup ∧
    List.lookup "127.0.0.1" m = none ∧
    (∀ env : ResolveEnv,
      getInterfaceForIP env (some m) "127.0.0.1" = "lo") := by
  have hm' : m = buildIfaceMap [] l := (Option.some.inj hm).symm
  refine ⟨?_, ?_, getNetworkInterfaces_no_loopback_key l m hwf hm,
    fun env => resolve_lo_of_no_key env m
      (getNetworkInterfaces_no_loopback_key l m hwf hm)⟩
  · intro kv hkv
    rw [hm'] at hkv
    rcases mem_buildIfaceMap l [] kv hkv with hmem | hex
    · simp at hmem
    · obtain ⟨i, hi, hup, hloop, as, has, a, ha, x, y, z, w, hv4, hx,
        hkveq⟩ := hex
      obtain ⟨hxb, _, _, _⟩ :=
        wfIfaces_bound l hwf i hi as has a ha x y z w hv4
      subst hkveq
      exact ⟨⟨x, y, z, w, hxb, hx, rfl⟩, i, hi, rfl, hup, hloop⟩
  · rw [hm']
    exact nodupKeys_buildIfaceMap l [] (by simp)

/-- A one-interface enumeration for concrete evaluations. -/
def ifaceX : NetIface :=
  ⟨"eth0", true, false,
   some [⟨.ipNet, some (192, 168, 1, 10), some (3232235776, 4294967040)⟩]⟩

/-- Witness for C10 on the concrete enumeration `[ifaceX]`. -/
theorem getNetworkInterfaces_invariant_witness :
    (∀ kv ∈ [("192.168.1.10", "eth0")],
      (∃ x y z w : Nat, x < 256 ∧ x ≠ 127 ∧ kv.1 = ipDotted x y z w) ∧
      ∃ i ∈ [ifaceX], i.name = kv.2 ∧ i.up = true ∧
        i.loopback = false) ∧
    (([("192.168.1.10", "eth0")] : List (String × String)).map
      Prod.fst).Nodup ∧
    List.lookup "127.0.0.1" [("192.168.1.10", "eth0")] = none ∧
    (∀ env : ResolveEnv,
      getInterfaceForIP env (some [("192.168.1.10", "eth0")])
        "127.0.0.1" = "lo") :=
  getNetworkInterfaces_invariant [ifaceX] [("192.168.1.10", "eth0")]
    (by decide) rfl

/-! ## C5 -/

/-- C5 counterexample: with `127.0.0.1` present as a cache key, the
exact-match cache lookup pre-empts the loopback special case and
`getInterfaceForIP` returns the cached name, not `lo`. -/
theorem getInterfaceForIP_loopback_cached :
    getInterfaceForIP ⟨some [], some [], none⟩
      (some [("127.0.0.1", "eth0")]) "127.0.0.1" = "eth0" ∧
    ("eth0" : String) ≠ "lo" :=
  ⟨rfl, by decide⟩

/-- C5 (amended): for every initialized cache state that does not
contain `127.0.0.1` as a key — which includes every cache the
program's own enumeration builds — resolving `127.0.0.1` returns
`lo`; the exact-match cache lookup precedes the special case, so a
cache entry for the key would take precedence. -/
theorem getInterfaceForIP_loopback (env : ResolveEnv)
    (cache : List (String × String))
    (hmiss : List.lookup "127.0.0.1" cache = none) :
    getInterfaceForIP env (some cache) "127.0.0.1" = "lo" ∧
    (∀ (l : List NetIface) (m : List (String × String)),
      wfIfaces l = true → getNetworkInterfaces (some l) = some m →
      getInterfaceForIP env (some m) "127.0.0.1" = "lo") :=
  ⟨resolve_lo_of_no_key env cache hmiss,
   fun l m hwf hm => resolve_lo_of_no_key env m
     (getNetworkInterfaces_no_loopback_key l m hwf hm)⟩

/-- Witness for C5 (amended) on a concrete cache without the loopback
key. -/
theorem getInterfaceForIP_loopback_witness :
    getInterfaceForIP ⟨some [], some [], none⟩
      (some [("10.0.0.1", "eth0")]) "127.0.0.1" = "lo" :=
  (getInterfaceForIP_loopback ⟨some [], some [], none⟩
    [("10.0.0.1", "eth0")] rfl).1

/-! ## C6 -/

/-- An up, non-loopback interface carrying an IPv4 address: the
candidate filter shared by every priority loop of
`getPrimaryInterface`. -/
def primaryCand (i : NetIface) : Bool :=
  !i.loopback && i.up && hasIPNetV4 i

/-- A bonding-named candidate. -/
def bondCand (i : NetIface) : Bool :=
  primaryCand i && goStartsWith i.name "bond"

/-- An ethernet-named candidate. -/
def ethCand (i : NetIface) : Bool :=
  primaryCand i &&
    (goStartsWith i.name "eth" || goStartsWith i.name "en")

theorem scanPrimary_eq_find (nameOK : String → Bool) :
    ∀ l : List NetIface,
    scanPrimary nameOK l =
      (l.find? (fun i => (!i.loopback && i.up) && nameOK i.name &&
        hasIPNetV4 i)).map (·.name)
  | [] => rfl
  | i :: rest => by
    have ih := scanPrimary_eq_find nameOK rest
    rw [scanPrimary]
    rcases hl : i.loopback <;> rcases hu : i.up <;>
      rcases hn : nameOK i.name <;> rcases hv : hasIPNetV4 i <;>
      simp [List.find?_cons, hl, hu, hn, hv, ih]

/-- C6: `getPrimaryInterface` selects by the fixed priority — the
first bonding candidate, else the first ethernet-named candidate,
else the first up, non-loopback candidate with an IPv4 address, else
`unknown` — and resolving `0.0.0.0` (absent a cache entry for it)
returns exactly that primary interface. -/
theorem getPrimaryInterface_priority (l : List NetIface) :
    (∀ i : NetIface, l.find? bondCand = some i →
      getPrimaryInterface (some l) = i.name) ∧
    (l.find? bondCand = none → ∀ i : NetIface,
      l.find? ethCand = some i →
      getPrimaryInterface (some l) = i.name) ∧
    (l.find? bondCand = none → l.find? ethCand = none →
      ∀ i : NetIface, l.find? primaryCand = some i →
      getPrimaryInterface (some l) = i.name) ∧
    (l.find? primaryCand = none →
      getPrimaryInterface (some l) = "unknown") ∧
    (∀ (env : ResolveEnv) (cache : List (String × String)),
      List.lookup "0.0.0.0" cache = none →
      getInterfaceForIP env (some cache) "0.0.0.0" =
        getPrimaryInterface env.ifaces) := by
  have hbond : (fun i : NetIface => (!i.loopback && i.up) &&
      goStartsWith i.name "bond" && hasIPNetV4 i) = bondCand := by
    funext i
    rcases hl : i.loopback <;> rcases hu : i.up <;>
      rcases hn : goStartsWith i.name "bond" <;>
      rcases hv : hasIPNetV4 i <;>
      simp [bondCand, primaryCand, hl, hu, hn, hv]
  have heth : (fun i : NetIface => (!i.loopback && i.up) &&
      (goStartsWith i.name "eth" || goStartsWith i.name "en") &&
      hasIPNetV4 i) = ethCand := by
    funext i
    rcases hl : i.loopback <;> rcases hu : i.up <;>
      rcases hn : (goStartsWith i.name "eth" ||
        goStartsWith i.name "en") <;>
      rcases hv : hasIPNetV4 i <;>
      simp [ethCand, primaryCand, hl, hu, hn, hv]
  have hany : (fun i : NetIface => (!i.loopback && i.up) &&
      (fun _ : String => true) i.name && hasIPNetV4 i) =
      primaryCand := by
    funext i
    rcases hl : i.loopback <;> rcases hu : i.up <;>
      rcases hv : hasIPNetV4 i <;>
      simp [primaryCand, hl, hu, hv]
  have hgb : scanPrimary (fun n => goStartsWith n "bond") l =
      (l.find? bondCand).map (·.name) := by
    rw [scanPrimary_eq_find]; rw [hbond]
  have hge : scanPrimary
      (fun n => goStartsWith n "eth" || goStartsWith n "en") l =
      (l.find? ethCand).map (·.name) := by
    rw [scanPrimary_eq_find]; rw [heth]
  have hga : scanPrimary (fun _ => true) l =
      (l.find? primaryCand).map (·.name) := by
    rw [scanPrimary_eq_find]; rw [hany]
  refine ⟨?_, ?_, ?_, ?_, ?_⟩
  · intro i hfind
    rw [getPrimaryInterface, hgb, hfind]
    rfl
  · intro hb i hfind
    rw [getPrimaryInterface, hgb, hb, hge, hfind]
    rfl
  · intro hb he i hfind
    rw [getPrimaryInterface, hgb, hb, hge, he, hga, hfind]
    rfl
  · intro hp
    have hb : l.find? bondCand = none := by
      rw [List.find?_eq_none] at hp ⊢
      intro x hx hbx
      exact hp x hx (by
        rw [bondCand, Bool.and_eq_true] at hbx
        exact hbx.1)
    have he : l.find? ethCand = none := by
      rw [List.find?_eq_none] at hp ⊢
      intro x hx hex
      exact hp x hx (by
        rw [ethCand, Bool.and_eq_true] at hex
        exact hex.1)
    rw [getPrimaryInterface, hgb, hb, hge, he, hga, hp]
    rfl
  · intro env cache hcache
    simp [getInterfaceForIP, getInterfaceForIPInstr, resolveWithCache,
      hcache]

/-- A bonding interface with an IPv4 address, for concrete
evaluations. -/
def bondX : NetIface :=
  ⟨"bond0", true, false,
   some [⟨.ipNet, some (10, 0, 0, 2), some (167772160, 4278190080)⟩]⟩

/-- Witness for C6: with a bonding candidate present it is selected,
and resolving `0.0.0.0` on an empty cache yields the primary
interface. -/
theorem getPrimaryInterface_priority_witness :
    getPrimaryInterface (some [bondX]) = bondX.name ∧
    getInterfaceForIP ⟨some [], some [bondX], none⟩ (some [])
      "0.0.0.0" =
      getPrimaryInterface (⟨some [], some [bondX], none⟩ :
        ResolveEnv).ifaces :=
  ⟨(getPrimaryInterface_priority [bondX]).1 bondX (by decide),
   (getPrimaryInterface_priority [bondX]).2.2.2.2
     ⟨some [], some [bondX], none⟩ [] rfl⟩

/-! ## C7 -/

theorem resolveWithCache_counts (env : ResolveEnv)
    (cache : List (String × String)) (ip : String) (initN : Nat) :
    (resolveWithCache env cache ip initN).2.initCalls = initN ∧
    (resolveWithCache env cache ip initN).2.rebuilds ≤ 1 ∧
    (resolveWithCache env cache ip initN).2.subnetChecks ≤ 1 ∧
    (resolveWithCache env cache ip initN).2.routeQueries = 0 ∧
    (resolveWithCache env cache ip initN).2.primaryCalls ≤ 1 ∧
    (ip ≠ "0.0.0.0" →
      (resolveWithCache env cache ip initN).2.primaryCalls = 0) := by
  unfold resolveWithCache
  rcases hlk : List.lookup ip cache with _ | iface
  · by_cases h1 : ip = "127.0.0.1"
    · simp [hlk, h1]
    · by_cases h2 : ip = "0.0.0.0"
      · simp [hlk, h1, h2]
      · rcases hen : env.enumerate with _ | cache2
        · simp [hlk, h1, h2, hen]
        · rcases hlk2 : List.lookup ip cache2 with _ | iface2
          · by_cases hs : getInterfaceBySubnet env.ifaces ip ≠ "unknown"
            · simp [hlk, h1, h2, hen, hlk2, hs]
            · simp [hlk, h1, h2, hen, hlk2, hs]
          · simp [hlk, h1, h2, hen, hlk2]
  · simp [hlk]

theorem resolveWithCache_hit (env : ResolveEnv)
    (cache : List (String × String)) (ip : String) (initN : Nat)
    (v : String) (hhit : List.lookup ip cache = some v) :
    resolveWithCache env cache ip initN = (v, ⟨initN, 0, 0, 0, 0⟩) := by
  unfold resolveWithCache
  simp [hhit]

theorem resolveWithCache_rebuilds_on_miss (env : ResolveEnv)
    (cache : List (String × String)) (ip : String) (initN : Nat)
    (hmiss : List.lookup ip cache = none) (h1 : ip ≠ "127.0.0.1")
    (h2 : ip ≠ "0.0.0.0") :
    (resolveWithCache env cache ip initN).2.rebuilds = 1 := by
  unfold resolveWithCache
  simp only [hmiss, if_neg h1, if_neg h2]
  rcases hen : env.enumerate with _ | cache2
  · simp
  · rcases hlk2 : List.lookup ip cache2 with _ | iface2
    · by_cases hs : getInterfaceBySubnet env.ifaces ip ≠ "unknown" <;>
        simp [hlk2, hs]
    · simp [hlk2]

theorem getInterfaceForIPInstr_counts (env : ResolveEnv)
    (cache0 : Option (List (String × String))) (ip : String) :
    (getInterfaceForIPInstr env cache0 ip).2.initCalls ≤ 1 ∧
    (getInterfaceForIPInstr env cache0 ip).2.rebuilds ≤ 1 ∧
    (getInterfaceForIPInstr env cache0 ip).2.subnetChecks ≤ 1 ∧
    (getInterfaceForIPInstr env cache0 ip).2.routeQueries = 0 ∧
    (getInterfaceForIPInstr env cache0 ip).2.primaryCalls ≤ 1 ∧
    (ip ≠ "0.0.0.0" →
      (getInterfaceForIPInstr env cache0 ip).2.primaryCalls = 0) := by
  rcases cache0 with _ | m
  · rcases hen : env.enumerate with _ | cache
    · have hred : getInterfaceForIPInstr env none ip =
          ("unknown", ⟨1, 0, 0, 0, 0⟩) := by
        simp only [getInterfaceForIPInstr, hen]
      rw [hred]
      simp
    · have hred : getInterfaceForIPInstr env none ip =
          resolveWithCache env cache ip 1 := by
        simp only [getInterfaceForIPInstr, hen]
      rw [hred]
      have h := resolveWithCache_counts env cache ip 1
      exact ⟨by simp [h.1], h.2.1, h.2.2.1, h.2.2.2.1, h.2.2.2.2.1,
        h.2.2.2.2.2⟩
  · have hred : getInterfaceForIPInstr env (some m) ip =
        resolveWithCache env m ip 0 := rfl
    rw [hred]
    have h := resolveWithCache_counts env m ip 0
    exact ⟨by simp [h.1], h.2.1, h.2.2.1, h.2.2.2.1, h.2.2.2.2.1,
      h.2.2.2.2.2⟩

theorem getInterfaceForIPInstr_hit (env : ResolveEnv)
    (m : List (String × String)) (ip v : String)
    (hhit : List.lookup ip m = some v) :
    getInterfaceForIPInstr env (some m) ip = (v, ⟨0, 0, 0, 0, 0⟩) :=
  resolveWithCache_hit env m ip 0 v hhit

theorem getInterfaceForIPInstr_miss_rebuilds (env : ResolveEnv)
    (m : List (String × String)) (ip : String)
    (hmiss : List.lookup ip m = none) (h1 : ip ≠ "127.0.0.1")
    (h2 : ip ≠ "0.0.0.0") :
    (getInterfaceForIPInstr env (some m) ip).2.rebuilds = 1 :=
  resolveWithCache_rebuilds_on_miss env m ip 0 hmiss h1 h2

/-- C7: per-connection resolution consults the cache first, on a miss
rebuilds it exactly once and retries, and attempts each fallback step
at most once per connection — at most one cache initialization, one
rebuild, one subnet scan, one routing query and one primary-interface
computation; a cache hit on a non-special source resolves with no
rebuild or fallback at all, and a cache miss performs exactly one
rebuild. -/
theorem resolution_fallbacks_bounded (env : ResolveEnv)
    (cache0 : Option (List (String × String))) (src dst : String) :
    (getInterfaceForConnectionInstr env cache0 src dst).2.initCalls
      ≤ 1 ∧
    (getInterfaceForConnectionInstr env cache0 src dst).2.rebuilds
      ≤ 1 ∧
    (getInterfaceForConnectionInstr env cache0 src dst).2.subnetChecks
      ≤ 1 ∧
    (getInterfaceForConnectionInstr env cache0 src dst).2.routeQueries
      ≤ 1 ∧
    (getInterfaceForConnectionInstr env cache0 src dst).2.primaryCalls
      ≤ 1 ∧
    (∀ (m : List (String × String)) (v : String),
      cache0 = some m → src ≠ "127.0.0.1" → src ≠ "0.0.0.0" →
      dst ≠ "127.0.0.1" → dst ≠ "0.0.0.0" →
      List.lookup src m = some v → v ≠ "unknown" →
      getInterfaceForConnectionInstr env cache0 src dst =
        (v, ⟨0, 0, 0, 0, 0⟩)) ∧
    (∀ m : List (String × String),
      cache0 = some m → src ≠ "127.0.0.1" → src ≠ "0.0.0.0" →
      dst ≠ "127.0.0.1" → dst ≠ "0.0.0.0" →
      List.lookup src m = none →
      (getInterfaceForConnectionInstr env cache0 src dst).2.rebuilds
        = 1) := by
  rw [getInterfaceForConnectionInstr]
  by_cases hlo : src = "127.0.0.1" ∨ dst = "127.0.0.1"
  · rw [if_pos hlo]
    refine ⟨by simp, by simp, by simp, by simp, by simp, ?_, ?_⟩
    · intro m v _ hb _ hd _ _ _
      rcases hlo with h | h
      · exact absurd h hb
      · exact absurd h hd
    · intro m _ hb _ hd _ _
      rcases hlo with h | h
      · exact absurd h hb
      · exact absurd h hd
  · rw [if_neg hlo]
    by_cases hdz : dst = "0.0.0.0"
    · rw [if_pos hdz]
      by_cases hsz : src = "0.0.0.0"
      · rw [if_pos hsz]
        refine ⟨by simp, by simp, by simp, by simp, by simp, ?_, ?_⟩
        · intro m v _ _ hc _ _ _ _
          exact absurd hsz hc
        · intro m _ _ hc _ _ _
          exact absurd hsz hc
      · rw [if_neg hsz]
        have h := getInterfaceForIPInstr_counts env cache0 src
        refine ⟨h.1, h.2.1, h.2.2.1, by simp [h.2.2.2.1],
          h.2.2.2.2.1, ?_, ?_⟩
        · intro m v _ _ _ _ he _ _
          exact absurd hdz he
        · intro m _ _ _ _ he _
          exact absurd hdz he
    · rw [if_neg hdz]
      by_cases hguard : src ≠ "0.0.0.0" ∧ src ≠ "127.0.0.1"
      · rw [if_pos hguard]
        rcases hstep : getInterfaceForIPInstr env cache0 src
          with ⟨r1, c1⟩
        have hc1 := getInterfaceForIPInstr_counts env cache0 src
        rw [hstep] at hc1
        have hprim0 : c1.primaryCalls = 0 := hc1.2.2.2.2.2 hguard.1
        have hroute0 : c1.routeQueries = 0 := hc1.2.2.2.1
        dsimp only
        have hhitcase : ∀ (m : List (String × String)) (v : String),
            cache0 = some m → List.lookup src m = some v →
            v ≠ "unknown" → r1 = v ∧ c1 = ⟨0, 0, 0, 0, 0⟩ := by
          intro m v hm hhit _
          subst hm
          have heq := getInterfaceForIPInstr_hit env m src v hhit
          rw [heq] at hstep
          exact ⟨(Prod.mk.inj hstep.symm).1, (Prod.mk.inj hstep.symm).2⟩
        have hmisscase : ∀ m : List (String × String),
            cache0 = some m → List.lookup src m = none →
            c1.rebuilds = 1 := by
          intro m hm hmiss
          subst hm
          have heq := getInterfaceForIPInstr_miss_rebuilds env m src
            hmiss hguard.2 hguard.1
          rw [hstep] at heq
          exact heq
        by_cases hr1 : r1 ≠ "unknown"
        · rw [if_pos hr1]
          refine ⟨hc1.1, hc1.2.1, hc1.2.2.1, by simp [hroute0],
            hc1.2.2.2.2.1, ?_, ?_⟩
          · intro m v hm _ _ _ _ hhit hvu
            obtain ⟨rfl, rfl⟩ := hhitcase m v hm hhit hvu
            rfl
          · intro m hm _ _ _ _ hmiss
            exact hmisscase m hm hmiss
        · rw [if_neg hr1]
          push_neg at hr1
          have hfinish : ∀ (res : String × ResCounts),
              (res = (getPrimaryInterface env.ifaces,
                addRoutePrimary c1 1 1) ∨
               res = (getInterfaceForDestination env.routeLines,
                addRoutePrimary c1 1 0) ∨
               res = (getPrimaryInterface env.ifaces,
                addRoutePrimary c1 0 1)) →
              res.2.initCalls ≤ 1 ∧ res.2.rebuilds ≤ 1 ∧
              res.2.subnetChecks ≤ 1 ∧ res.2.routeQueries ≤ 1 ∧
              res.2.primaryCalls ≤ 1 := by
            intro res hres
            rcases hres with rfl | rfl | rfl <;>
              exact ⟨hc1.1, hc1.2.1, hc1.2.2.1,
                by simp [addRoutePrimary, hroute0],
                by simp [addRoutePrimary, hprim0]⟩
          by_cases hloc : (!isLocalIP dst) = true
          · rw [if_pos hloc]
            by_cases hr2 : getInterfaceForDestination env.routeLines
                ≠ "unknown"
            · rw [if_pos hr2]
              have h5 := hfinish _ (Or.inr (Or.inl rfl))
              refine ⟨h5.1, h5.2.1, h5.2.2.1, h5.2.2.2.1,
                h5.2.2.2.2, ?_, ?_⟩
              · intro m v hm _ _ _ _ hhit hvu
                obtain ⟨rfl, _⟩ := hhitcase m v hm hhit hvu
                exact absurd hr1 hvu
              · intro m hm _ _ _ _ hmiss
                simp [addRoutePrimary, hmisscase m hm hmiss]
            · rw [if_neg hr2]
              have h5 := hfinish _ (Or.inl rfl)
              refine ⟨h5.1, h5.2.1, h5.2.2.1, h5.2.2.2.1,
                h5.2.2.2.2, ?_, ?_⟩
              · intro m v hm _ _ _ _ hhit hvu
                obtain ⟨rfl, _⟩ := hhitcase m v hm hhit hvu
                exact absurd hr1 hvu
              · intro m hm _ _ _ _ hmiss
                simp [addRoutePrimary, hmisscase m hm hmiss]
          · rw [if_neg hloc]
            have h5 := hfinish _ (Or.inr (Or.inr rfl))
            refine ⟨h5.1, h5.2.1, h5.2.2.1, h5.2.2.2.1,
              h5.2.2.2.2, ?_, ?_⟩
            · intro m v hm _ _ _ _ hhit hvu
              obtain ⟨rfl, _⟩ := hhitcase m v hm hhit hvu
              exact absurd hr1 hvu
            · intro m hm _ _ _ _ hmiss
              simp [addRoutePrimary, hmisscase m hm hmiss]
      · rw [if_neg hguard]
        dsimp only
        rw [if_neg (fun h => h rfl)]
        have hcount : ∀ n : Nat, n ≤ 1 → ∀ p : Nat, p ≤ 1 →
            True := fun _ _ _ _ => trivial
        refine ⟨?_, ?_, ?_, ?_, ?_, ?_, ?_⟩
        · repeat' split
          all_goals simp [addRoutePrimary]
        · repeat' split
          all_goals simp [addRoutePrimary]
        · repeat' split
          all_goals simp [addRoutePrimary]
        · repeat' split
          all_goals simp [addRoutePrimary]
        · repeat' split
          all_goals simp [addRoutePrimary]
        · intro m v _ hb hc _ _ _ _
          push_neg at hguard
          exact absurd (hguard hc) hb
        · intro m _ hb hc _ _ _
          push_neg at hguard
          exact absurd (hguard hc) hb

/-- Witness for C7: a concrete resolution with a cached source IP
performs no rebuild and no fallback. -/
theorem resolution_fallbacks_bounded_witness :
    getInterfaceForConnectionInstr ⟨some [], some [], none⟩
      (some [("10.0.0.5", "eth1")]) "10.0.0.5" "93.184.216.34" =
      ("eth1", ⟨0, 0, 0, 0, 0⟩) :=
  (resolution_fallbacks_bounded ⟨some [], some [], none⟩
    (some [("10.0.0.5", "eth1")]) "10.0.0.5" "93.184.216.34").2.2.2.2.2.1
    [("10.0.0.5", "eth1")] "eth1" rfl (by decide) (by decide)
    (by decide) (by decide) rfl (by decide)

end ConnExporter
